import Mathlib

/-!
Formal model of the multiplayer NES soccer server.

The definitions below are a shallow embedding of the TypeScript source of
the repository.  JavaScript numbers are modelled as real numbers (floating
point rounding and NaN are outside the model), nullable strings as
Option String, and the iteration order of a JS Map as the order of a Lean
list (a JS Map iterates its entries in insertion order).  Calls to
Math.random are modelled by an oracle stream of real values, and Date.now
by an explicit timestamp argument.  Each definition carries a comment
naming the source function it translates.
-/

namespace Soccer

noncomputable section

/-- Team tag, the closed string union "home" | "away" of the source. -/
inductive Team where
  | home
  | away
deriving DecidableEq

/-- Truthiness of a nullable string in JavaScript: null and the empty
string are falsy, every other string is truthy.  Used wherever the source
tests a nullable id with an implicit boolean coercion, such as
`!room.ball.ownerId`. -/
def jsTruthy : Option String → Bool
  | none => false
  | some s => !(s == "")

/-- Oracle stream feeding the successive results of Math.random. -/
abbrev RS := ℕ → ℝ

/-- Drops the first value of a random oracle stream. -/
def rsTail (r : RS) : RS := fun n => r (n + 1)

/-- JavaScript `Number(x) || d` on an already numeric value: zero is falsy
and is replaced by the default (NaN, which is also replaced, lies outside
the real-number model). -/
def jsOrR (x d : ℝ) : ℝ := if x = 0 then d else x

/-- JavaScript `x || d` for an integer-valued number. -/
def jsOrZ (x d : ℤ) : ℤ := if x = 0 then d else x

/-- JavaScript `x || d` for a natural-valued number. -/
def jsOrN (x d : ℕ) : ℕ := if x = 0 then d else x

/-- JavaScript `x || d` on a string: only the empty string is falsy. -/
def jsOrS (x d : String) : String := if x = "" then d else x

/-- Ball record of the source (`interface Ball`, identical in both engine
variants): position, velocity, nullable owner id and the goalkeeper grab
flag. -/
structure Ball where
  x : ℝ
  y : ℝ
  velocityX : ℝ
  velocityY : ℝ
  ownerId : Option String
  isGrabbed : Bool

namespace Store

/-! Model of the Redis-backed game store (the `game-store` module):
constants, data model, serialization, room operations and the
server-authoritative tick loop `updateGame`. -/

def FIELD_WIDTH : ℝ := 800
def FIELD_HEIGHT : ℝ := 500
def GOAL_HEIGHT : ℝ := 150
def PLAYER_SIZE : ℝ := 24
def BALL_SIZE : ℝ := 12
def PLAYER_SPEED : ℝ := 3.5
def BALL_FRICTION : ℝ := 0.98
def SHOOT_POWER : ℝ := 14
def PASS_POWER : ℝ := 9
def SLIDE_SPEED : ℝ := 7
def SLIDE_DURATION : ℤ := 25

/-- Player record of the game store (`interface Player`). -/
structure Player where
  id : String
  name : String
  x : ℝ
  y : ℝ
  team : Team
  isGoalkeeper : Bool
  hasBall : Bool
  isSliding : Bool
  slideTimer : ℤ
  grabTimer : ℤ
  velocityX : ℝ
  velocityY : ℝ
  facingX : ℝ
  facingY : ℝ
  lastUpdate : ℝ
  animFrame : ℝ

/-- Room record of the game store (`interface GameRoom`).  The player map
is stored in a separate Redis hash and is modelled by the list in
`RoomState` below. -/
structure GameRoom where
  id : String
  name : String
  ball : Ball
  scoreHome : ℕ
  scoreAway : ℕ
  gameTime : ℤ
  isPlaying : Bool
  lastGoalTeam : Option Team
  goalCelebration : ℤ
  lastTick : ℝ
  createdAt : ℝ

/-- Authoritative state of one room: the room record together with the
players of the room hash, in insertion order. -/
structure RoomState where
  room : GameRoom
  players : List Player

/-- Source `createInitialBall`. -/
def createInitialBall : Ball :=
  { x := FIELD_WIDTH / 2
    y := FIELD_HEIGHT / 2
    velocityX := 0
    velocityY := 0
    ownerId := none
    isGrabbed := false }

/-- Source `serializeBall`: clean copy written to Redis.  On an in-range
ball every field except a zero coordinate is kept as is. -/
def serializeBall (b : Ball) : Ball :=
  { x := jsOrR b.x (FIELD_WIDTH / 2)
    y := jsOrR b.y (FIELD_HEIGHT / 2)
    velocityX := jsOrR b.velocityX 0
    velocityY := jsOrR b.velocityY 0
    ownerId := b.ownerId
    isGrabbed := b.isGrabbed }

/-- Source `serializeRoom`: the clean object written to Redis.  The stored
record has exactly the shape of a room, so it is modelled as a room. -/
def serializeRoom (room : GameRoom) (now : ℝ) : GameRoom :=
  { id := room.id
    name := room.name
    ball := serializeBall room.ball
    scoreHome := jsOrN room.scoreHome 0
    scoreAway := jsOrN room.scoreAway 0
    gameTime := jsOrZ room.gameTime 0
    isPlaying := room.isPlaying
    lastGoalTeam := room.lastGoalTeam
    goalCelebration := jsOrZ room.goalCelebration 0
    lastTick := jsOrR room.lastTick now
    createdAt := jsOrR room.createdAt now }

/-- Source `parseRoom`, specialized to data of the shape produced by
`serializeRoom` (every field present with its serialized type; the
missing-field and wrong-type fallbacks of the source collapse to the
numeric and string defaults shown here).  Note the `|| 180` default on
`gameTime` and the `|| Date.now()` defaults on the timestamps. -/
def parseRoom (obj : GameRoom) (now : ℝ) : GameRoom :=
  { id := jsOrS obj.id ""
    name := jsOrS obj.name "Unknown Room"
    ball :=
      { x := jsOrR obj.ball.x (FIELD_WIDTH / 2)
        y := jsOrR obj.ball.y (FIELD_HEIGHT / 2)
        velocityX := jsOrR obj.ball.velocityX 0
        velocityY := jsOrR obj.ball.velocityY 0
        ownerId := obj.ball.ownerId
        isGrabbed := obj.ball.isGrabbed }
    scoreHome := jsOrN obj.scoreHome 0
    scoreAway := jsOrN obj.scoreAway 0
    gameTime := jsOrZ obj.gameTime 180
    isPlaying := obj.isPlaying
    lastGoalTeam := obj.lastGoalTeam
    goalCelebration := jsOrZ obj.goalCelebration 0
    lastTick := jsOrR obj.lastTick now
    createdAt := jsOrR obj.createdAt now }

/-- Source `getInitialPlayerPosition`: goalkeeper slot or one of four
formation slots per team, indexed modulo 4.  The `pos || default`
fallback of the source is modelled by `getD`. -/
def getInitialPlayerPosition (team : Team) (playerIndex : ℕ) (isGoalkeeper : Bool) : ℝ × ℝ :=
  if isGoalkeeper then
    (if team = Team.home then 50 else FIELD_WIDTH - 50, FIELD_HEIGHT / 2)
  else
    let formations : List (ℝ × ℝ) :=
      match team with
      | Team.home => [(150, 150), (150, 350), (300, 200), (300, 300)]
      | Team.away =>
          [(FIELD_WIDTH - 150, 150), (FIELD_WIDTH - 150, 350),
           (FIELD_WIDTH - 300, 200), (FIELD_WIDTH - 300, 300)]
    (formations.get? (playerIndex % 4)).getD (FIELD_WIDTH / 2, FIELD_HEIGHT / 2)

/-- Number of players of a team in the room, as counted by the
`players.forEach` loop of `joinRoom`. -/
def teamCount (ps : List Player) (team : Team) : ℕ :=
  (ps.filter (fun p => p.team = team)).length

/-- Source `createRoom`: the fresh room record (the Redis bookkeeping of
the room list is a boundary concern).  A fresh room has no players. -/
def initState (roomId roomName : String) (now : ℝ) : RoomState :=
  { room :=
      { id := roomId
        name := roomName.take 32
        ball := createInitialBall
        scoreHome := 0
        scoreAway := 0
        gameTime := 180
        isPlaying := true
        lastGoalTeam := none
        goalCelebration := 0
        lastTick := now
        createdAt := now }
    players := [] }

/-- Refresh of the stored activity timestamp of one player, the effect of
`savePlayer` after `existingPlayer.lastUpdate = Date.now()`. -/
def refreshPlayers (ps : List Player) (pid : String) (now : ℝ) : List Player :=
  ps.map (fun q => if q.id == pid then { q with lastUpdate := now } else q)

/-- Player record created by `joinRoom` for a fresh player id: the first
member of a team becomes its goalkeeper, the others take formation slots
by team index. -/
def freshPlayer (st : RoomState) (playerId playerName : String) (team : Team)
    (now rand : ℝ) : Player :=
  let homeCount := teamCount st.players Team.home
  let awayCount := teamCount st.players Team.away
  let isGoalkeeper := if team = Team.home then homeCount = 0 else awayCount = 0
  let playerIndex := if team = Team.home then homeCount else awayCount
  let pos := getInitialPlayerPosition team playerIndex isGoalkeeper
  { id := playerId
    name := (jsOrS playerName ("Player " ++ toString (st.players.length + 1))).take 16
    x := pos.1
    y := pos.2
    team := team
    isGoalkeeper := isGoalkeeper
    hasBall := false
    isSliding := false
    slideTimer := 0
    grabTimer := 0
    velocityX := 0
    velocityY := 0
    facingX := if team = Team.home then 1 else -1
    facingY := 0
    lastUpdate := now
    animFrame := ((⌊rand * 100⌋ : ℤ) : ℝ) }

/-- Source `joinRoom`, on an existing room.  Returns the player snapshot
given back to the caller, or none when the requested team is full, and
the room state after the call.  The branch creating a missing room is
outside the model of a single existing room.  `rand` feeds the
`Math.random()` call of the initial `animFrame`. -/
def joinRoom (st : RoomState) (playerId playerName : String) (team : Team)
    (now rand : ℝ) : Option Player × RoomState :=
  match st.players.find? (fun q => q.id == playerId) with
  | some existing =>
      (some { existing with lastUpdate := now },
       { st with players := refreshPlayers st.players playerId now })
  | none =>
      let homeCount := teamCount st.players Team.home
      let awayCount := teamCount st.players Team.away
      if (team = Team.home ∧ 5 ≤ homeCount) ∨ (team = Team.away ∧ 5 ≤ awayCount) then
        (none, st)
      else
        let player := freshPlayer st playerId playerName team now rand
        (some player, { st with players := st.players ++ [player] })

/-- Source `leaveRoom`: releases the ball when the leaving player holds
it, then removes the player from the room hash. -/
def leaveRoom (st : RoomState) (playerId : String) : RoomState :=
  let ball :=
    match st.players.find? (fun q => q.id == playerId) with
    | some p =>
        if p.hasBall then { st.room.ball with ownerId := none, isGrabbed := false }
        else st.room.ball
    | none => st.room.ball
  { room := { st.room with ball := ball }
    players := st.players.filter (fun q => !(q.id == playerId)) }

/-- HTTP outcome of the join branch of the game route. -/
inductive ApiResp where
  | ok : ApiResp
  | error : ℕ → String → ApiResp
deriving DecidableEq

/-- The `case "join"` branch of the POST handler in the game route: a
null result from `joinRoom` is surfaced as a 400 error response, a player
snapshot as a success response. -/
def apiJoin : Option Player → ApiResp
  | none => ApiResp.error 400 "Failed to join room - team may be full"
  | some _ => ApiResp.ok

/-- Input payload of `handleInput`, already coerced to numbers and
booleans by the route sanitizer. -/
structure GameInput where
  dx : ℝ
  dy : ℝ
  shoot : Bool
  slide : Bool
  grab : Bool
  pass : Bool

/-- Facing-biased pass metric of `findNearestTeammate`: plain distance
scaled by 0.6 when the candidate lies ahead of the passer (positive dot
product with the facing vector), by 1.4 otherwise. -/
def adjustedDist (fromPlayer p : Player) : ℝ :=
  let dx := p.x - fromPlayer.x
  let dy := p.y - fromPlayer.y
  let dist := Real.sqrt (dx * dx + dy * dy)
  let dotProduct := dx * fromPlayer.facingX + dy * fromPlayer.facingY
  if 0 < dotProduct then dist * 0.6 else dist * 1.4

/-- One step of the `players.forEach` scan of `findNearestTeammate`:
skips the passer and opposing players, otherwise keeps the candidate with
the strictly smaller adjusted distance (so the earliest of tied
candidates is kept).  The initial minimum Number.POSITIVE_INFINITY is
modelled by the none state, which every candidate beats. -/
def fntStep (fromPlayer : Player) (acc : Option (Player × ℝ)) (p : Player) :
    Option (Player × ℝ) :=
  if p.id = fromPlayer.id ∨ p.team ≠ fromPlayer.team then acc
  else
    match acc with
    | none => some (p, adjustedDist fromPlayer p)
    | some (_, m) =>
        if adjustedDist fromPlayer p < m then some (p, adjustedDist fromPlayer p) else acc

/-- Source `findNearestTeammate`. -/
def findNearestTeammate (ps : List Player) (fromPlayer : Player) : Option Player :=
  (ps.foldl (fntStep fromPlayer) none).map Prod.fst

/-- Movement block of `handleInput`: clamps the direction input, sets
the facing unit vector and, while not sliding, the velocity. -/
def inputMove (input : GameInput) (pA : Player) : Player :=
  let dx := max (-1) (min 1 input.dx)
  let dy := max (-1) (min 1 input.dy)
  if dx ≠ 0 ∨ dy ≠ 0 then
    let magnitude := Real.sqrt (dx * dx + dy * dy)
    let pF :=
      if 0 < magnitude then
        { pA with facingX := dx / magnitude, facingY := dy / magnitude }
      else pA
    if ¬ pF.isSliding then
      { pF with velocityX := dx / magnitude * PLAYER_SPEED,
                velocityY := dy / magnitude * PLAYER_SPEED }
    else pF
  else pA

/-- Shooting block of `handleInput`. -/
def inputShoot (input : GameInput) (pb : Player × Ball) : Player × Ball :=
  if input.shoot ∧ pb.1.hasBall then
    ({ pb.1 with hasBall := false },
     { pb.2 with ownerId := none, isGrabbed := false,
                 velocityX := pb.1.facingX * SHOOT_POWER,
                 velocityY := pb.1.facingY * SHOOT_POWER })
  else pb

/-- Passing block of `handleInput`. -/
def inputPass (ps : List Player) (input : GameInput) (pb : Player × Ball) :
    Player × Ball :=
  if input.pass ∧ pb.1.hasBall then
    match findNearestTeammate ps pb.1 with
    | some teammate =>
        let p1 := { pb.1 with hasBall := false }
        let b1 := { pb.2 with ownerId := none, isGrabbed := false }
        let tdx := teammate.x - p1.x
        let tdy := teammate.y - p1.y
        let dist := Real.sqrt (tdx * tdx + tdy * tdy)
        if 0 < dist then
          (p1, { b1 with velocityX := tdx / dist * PASS_POWER,
                         velocityY := tdy / dist * PASS_POWER })
        else (p1, b1)
    | none => pb
  else pb

/-- Sliding block of `handleInput`. -/
def inputSlide (input : GameInput) (pb : Player × Ball) : Player × Ball :=
  if input.slide ∧ ¬ pb.1.isSliding ∧ ¬ pb.1.hasBall then
    ({ pb.1 with isSliding := true, slideTimer := SLIDE_DURATION }, pb.2)
  else pb

/-- Goalkeeper grab block of `handleInput`. -/
def inputGrab (input : GameInput) (pb : Player × Ball) : Player × Ball :=
  if input.grab ∧ pb.1.isGoalkeeper ∧ ¬ jsTruthy pb.2.ownerId then
    let bdx := pb.1.x - pb.2.x
    let bdy := pb.1.y - pb.2.y
    if Real.sqrt (bdx * bdx + bdy * bdy) < PLAYER_SIZE * 2.5 then
      ({ pb.1 with hasBall := true },
       { pb.2 with ownerId := some pb.1.id, isGrabbed := true })
    else pb
  else pb

/-- Body of `handleInput` acting on the addressed player and the ball:
activity refresh, movement, shooting, passing, sliding and the
goalkeeper grab, in source order.  The player list is read by the pass
branch to choose a receiver (in the source that branch reads the live
player map, whose only entry differing from the stored list is the
acting player, which the scan skips by id). -/
def applyInput (ps : List Player) (input : GameInput) (now : ℝ) (p0 : Player)
    (b0 : Ball) : Player × Ball :=
  inputGrab input (inputSlide input (inputPass ps input
    (inputShoot input (inputMove input { p0 with lastUpdate := now }, b0))))

/-- Possession effect of one `handleInput` body on the acting player and
the ball, relative to the incoming state: either the possession fields
are untouched, or a held ball was released (shoot or pass), or a free
ball was grabbed by a goalkeeper (possibly their own just-released
ball). -/
def PosRel (p0 : Player) (b0 : Ball) (pb : Player × Ball) : Prop :=
  pb.1.id = p0.id ∧ pb.1.team = p0.team ∧ pb.1.isGoalkeeper = p0.isGoalkeeper ∧
  ((pb.1.hasBall = p0.hasBall ∧ pb.2.ownerId = b0.ownerId ∧
      pb.2.isGrabbed = b0.isGrabbed) ∨
   (p0.hasBall = true ∧ pb.1.hasBall = false ∧ pb.2.ownerId = none ∧
      pb.2.isGrabbed = false) ∨
   (pb.1.hasBall = true ∧ p0.isGoalkeeper = true ∧ pb.2.ownerId = some p0.id ∧
      pb.2.isGrabbed = true ∧ (jsTruthy b0.ownerId = false ∨ p0.hasBall = true)))

/-- Source `handleInput`: applies one input payload to the addressed
player of an existing room, then persists the player and the room. -/
def handleInput (st : RoomState) (pid : String) (input : GameInput) (now : ℝ) :
    RoomState :=
  match st.players.find? (fun q => q.id == pid) with
  | none => st
  | some p =>
      let pb := applyInput st.players input now p st.room.ball
      { room := { st.room with ball := pb.2 }
        players := st.players.map (fun q => if q.id == pid then pb.1 else q) }

/-- Input payload carrying only a pass request. -/
def passInput : GameInput :=
  { dx := 0, dy := 0, shoot := false, slide := false, grab := false, pass := true }

/-- Simple concrete player used by the concrete instances below. -/
def wPlayer (pid : String) (team : Team) : Player :=
  { id := pid
    name := pid
    x := 0
    y := 0
    team := team
    isGoalkeeper := false
    hasBall := false
    isSliding := false
    slideTimer := 0
    grabTimer := 0
    velocityX := 0
    velocityY := 0
    facingX := 1
    facingY := 0
    lastUpdate := 0
    animFrame := 0 }

/-- Concrete room state whose home team already holds five players. -/
def fullHomeState : RoomState :=
  { room := (initState "r" "Room" 0).room
    players :=
      [wPlayer "h1" Team.home, wPlayer "h2" Team.home, wPlayer "h3" Team.home,
       wPlayer "h4" Team.home, wPlayer "h5" Team.home] }

/-- Per-player block of the updateGame frame: animation advance, sliding
displacement, velocity integration with damping, bounds clamp, and the
possession follow that glues the ball to its holder (or pins it above a
grabbing goalkeeper).  Returns the updated player and ball. -/
def playerStep (b0 : Ball) (p0 : Player) : Player × Ball :=
  let p :=
    if 0.3 < |p0.velocityX| ∨ 0.3 < |p0.velocityY| then
      { p0 with animFrame := p0.animFrame + 0.5 }
    else p0
  let p :=
    if p.isSliding then
      let t := p.slideTimer - 1
      if t ≤ 0 then { p with slideTimer := t, isSliding := false }
      else { p with slideTimer := t, x := p.x + p.facingX * SLIDE_SPEED,
                    y := p.y + p.facingY * SLIDE_SPEED }
    else p
  let p := { p with x := p.x + p.velocityX, y := p.y + p.velocityY,
                    velocityX := p.velocityX * 0.88, velocityY := p.velocityY * 0.88 }
  let p := { p with x := max PLAYER_SIZE (min (FIELD_WIDTH - PLAYER_SIZE) p.x),
                    y := max PLAYER_SIZE (min (FIELD_HEIGHT - PLAYER_SIZE) p.y) }
  let b : Ball :=
    if p.hasBall && !b0.isGrabbed then
      { b0 with x := p.x + p.facingX * (PLAYER_SIZE / 2 + BALL_SIZE / 2 + 2),
                y := p.y + p.facingY * (PLAYER_SIZE / 2 + BALL_SIZE / 2 + 2),
                velocityX := 0, velocityY := 0, ownerId := some p.id }
    else b0
  let b2 : Ball :=
    if p.isGoalkeeper && p.hasBall && b.isGrabbed then
      { b with x := p.x, y := p.y - PLAYER_SIZE / 2 - BALL_SIZE }
    else b
  (p, b2)

/-- The `players.forEach` update loop of a frame, threading the ball. -/
def playersUpdate : List Player → Ball → List Player × Ball
  | [], b => ([], b)
  | p :: rest, b =>
      let pb := playerStep b p
      let rb := playersUpdate rest pb.2
      (pb.1 :: rb.1, rb.2)

/-- Pickup resolution: scanning the players in order, a player without
the ball, while the ball is unowned, within the pickup radius gains
possession; granting ownership makes every later test fail, so the first
eligible player in iteration order wins. -/
def pickupFold : List Player → Ball → List Player × Ball
  | [], b => ([], b)
  | p :: rest, b =>
      if ¬ (p.hasBall = true ∨ jsTruthy b.ownerId = true) ∧
          Real.sqrt ((p.x - b.x) * (p.x - b.x) + (p.y - b.y) * (p.y - b.y)) <
            PLAYER_SIZE / 2 + BALL_SIZE / 2 + 4 then
        let rb := pickupFold rest { b with ownerId := some p.id, isGrabbed := false }
        ({ p with hasBall := true } :: rb.1, rb.2)
      else
        let rb := pickupFold rest b
        (p :: rb.1, rb.2)

/-- Tackle qualification: a sliding player dispossesses any opposing
ball holder within the tackle radius. -/
@[reducible]
def tackleHits (sl t : Player) : Prop :=
  ¬ t.id = sl.id ∧ ¬ t.team = sl.team ∧ t.hasBall = true ∧
  Real.sqrt ((sl.x - t.x) * (sl.x - t.x) + (sl.y - t.y) * (sl.y - t.y)) <
    PLAYER_SIZE * 1.8

/-- Inner tackle scan of one sliding player over the current player
list: each hit clears the target and releases the ball with a random
impulse (two oracle values per hit). -/
def tackleInner (sl : Player) : List Player → Ball → RS → List Player × Ball × RS
  | [], b, rs => ([], b, rs)
  | t :: rest, b, rs =>
      if tackleHits sl t then
        let b1 : Ball :=
          { b with
              ownerId := none
              isGrabbed := false
              velocityX := (rs 0 - 0.5) * 6
              velocityY := (rsTail rs 0 - 0.5) * 6 }
        let rb := tackleInner sl rest b1 (rsTail (rsTail rs))
        ({ t with hasBall := false } :: rb.1, rb.2.1, rb.2.2)
      else
        let rb := tackleInner sl rest b rs
        (t :: rb.1, rb.2.1, rb.2.2)

/-- Outer tackle scan over the sliding players. -/
def tackleOuter : List Player → List Player × Ball × RS → List Player × Ball × RS
  | [], acc => acc
  | s :: rest, acc =>
      if s.isSliding then tackleOuter rest (tackleInner s acc.1 acc.2.1 acc.2.2)
      else tackleOuter rest acc

/-- Slide-tackle resolution of one frame.  The outer scan iterates over
the pre-stage snapshot, which is faithful to the live iteration of the
source because the inner pass never writes the fields (isSliding,
position, team, id) that the outer scan reads. -/
def tackleStage (ps : List Player) (b : Ball) (rs : RS) : List Player × Ball × RS :=
  tackleOuter ps (ps, b, rs)

/-- Free-ball physics of one frame: integration, friction, top and
bottom wall bounce with clamping, the two goal tests, and — only when no
goal is scored — the side-wall bounce.  Returns the updated ball and the
scoring team, if any.  An owned ball is untouched. -/
def ballStep (b : Ball) : Ball × Option Team :=
  if jsTruthy b.ownerId = true then (b, none)
  else
    let x1 := b.x + b.velocityX
    let y1 := b.y + b.velocityY
    let vx1 := b.velocityX * BALL_FRICTION
    let vy1 := b.velocityY * BALL_FRICTION
    let vy2 := if y1 < BALL_SIZE ∨ FIELD_HEIGHT - BALL_SIZE < y1 then vy1 * (-0.8) else vy1
    let y2 :=
      if y1 < BALL_SIZE ∨ FIELD_HEIGHT - BALL_SIZE < y1 then
        max BALL_SIZE (min (FIELD_HEIGHT - BALL_SIZE) y1)
      else y1
    let goalTop := FIELD_HEIGHT / 2 - GOAL_HEIGHT / 2
    let goalBottom := FIELD_HEIGHT / 2 + GOAL_HEIGHT / 2
    if x1 < 25 ∧ goalTop < y2 ∧ y2 < goalBottom then
      ({ b with x := x1, y := y2, velocityX := vx1, velocityY := vy2 }, some Team.away)
    else if FIELD_WIDTH - 25 < x1 ∧ goalTop < y2 ∧ y2 < goalBottom then
      ({ b with x := x1, y := y2, velocityX := vx1, velocityY := vy2 }, some Team.home)
    else
      let vx2 := if x1 < BALL_SIZE ∨ FIELD_WIDTH - BALL_SIZE < x1 then vx1 * (-0.8) else vx1
      let x2 :=
        if x1 < BALL_SIZE ∨ FIELD_WIDTH - BALL_SIZE < x1 then
          max BALL_SIZE (min (FIELD_WIDTH - BALL_SIZE) x1)
        else x1
      ({ b with x := x2, y := y2, velocityX := vx2, velocityY := vy2 }, none)

/-- One frame of the updateGame loop: celebration gate, wall-clock based
match clock, player updates, free-ball physics with goal handling (a
goal skips pickup and tackles for its frame), pickup resolution and
slide tackles.  The boolean accumulates the needs-reset flag raised when
the celebration countdown reaches zero. -/
def frame (now : ℝ) (acc : RoomState × Bool × RS) : RoomState × Bool × RS :=
  let st := acc.1
  let needsReset := acc.2.1
  let rs := acc.2.2
  if 0 < st.room.goalCelebration then
    let gc := st.room.goalCelebration - 1
    ({ st with room := { st.room with goalCelebration := gc } },
     needsReset || decide (gc = 0), rs)
  else
    let room1 :=
      if 0 < st.room.gameTime then
        { st.room with gameTime := max 0 (180 - ⌊(now - st.room.createdAt) / 1000⌋) }
      else st.room
    let pu := playersUpdate st.players room1.ball
    let bs := ballStep pu.2
    match bs.2 with
    | some Team.away =>
        ({ room :=
             { room1 with
                 ball := bs.1
                 scoreAway := room1.scoreAway + 1
                 lastGoalTeam := some Team.away
                 goalCelebration := 150 },
           players := pu.1 }, needsReset, rs)
    | some Team.home =>
        ({ room :=
             { room1 with
                 ball := bs.1
                 scoreHome := room1.scoreHome + 1
                 lastGoalTeam := some Team.home
                 goalCelebration := 150 },
           players := pu.1 }, needsReset, rs)
    | none =>
        let pk := pickupFold pu.1 bs.1
        let tk := tackleStage pk.1 pk.2 rs
        ({ room := { room1 with ball := tk.2.1 }, players := tk.1 }, needsReset, tk.2.2)

/-- Frame loop of `updateGame`. -/
def runFrames (now : ℝ) : ℕ → RoomState × Bool × RS → RoomState × Bool × RS
  | 0, acc => acc
  | n + 1, acc => runFrames now n (frame now acc)

/-- Player loop of `resetPositions`, with the per-team formation
counters. -/
def resetFold : List Player → ℕ → ℕ → List Player
  | [], _, _ => []
  | p :: rest, homeIndex, awayIndex =>
      let isGoalkeeper : Bool :=
        if p.team = Team.home then decide (homeIndex = 0) else decide (awayIndex = 0)
      let idx := if p.team = Team.home then homeIndex else awayIndex
      let pos := getInitialPlayerPosition p.team idx isGoalkeeper
      let p1 := { p with
          isGoalkeeper := isGoalkeeper
          x := pos.1
          y := pos.2
          hasBall := false
          isSliding := false
          slideTimer := 0
          velocityX := 0
          velocityY := 0
          facingX := if p.team = Team.home then (1 : ℝ) else -1
          facingY := 0 }
      p1 :: resetFold rest (if p.team = Team.home then homeIndex + 1 else homeIndex)
        (if p.team = Team.home then awayIndex else awayIndex + 1)

/-- Source `resetPositions`: recreate the ball at center and reposition
every player to a formation slot, reassigning goalkeeper roles by team
index. -/
def resetPositions (st : RoomState) : RoomState :=
  { room := { st.room with ball := createInitialBall }
    players := resetFold st.players 0 0 }

/-- Frame count of one updateGame call past the 16 ms gate: the catch-up
clamp `min(10, floor(deltaMs / 16.67))`. -/
def elapsedFrames (deltaMs : ℝ) : ℤ := min 10 ⌊deltaMs / (1667 / 100)⌋

/-- Elapsed-tick formula asserted by the claim, with tick duration
1000 / 60 ms; stated from the words of the specification for comparison
with `elapsedFrames`. -/
def specElapsedTicks (deltaMs : ℝ) : ℤ := min 10 ⌊deltaMs / (1000 / 60)⌋

/-- Number of frames simulated by one `updateGame` call. -/
def updateGameFrames (now : ℝ) (st : RoomState) : ℕ :=
  if st.room.isPlaying = false then 0
  else if now - st.room.lastTick < 16 then 0
  else (elapsedFrames (now - st.room.lastTick)).toNat

/-- Source `updateGame`: the room advance operation.  Returns early on a
paused room or when fewer than 16 ms have elapsed since the previous
tick; otherwise stamps the tick time and runs the frame loop for the
clamped number of elapsed frames, applying the kickoff reset when a
celebration ended during the loop. -/
def updateGame (now : ℝ) (st : RoomState) (rs : RS) : RoomState :=
  if st.room.isPlaying = false then st
  else if now - st.room.lastTick < 16 then st
  else
    let st1 : RoomState := { st with room := { st.room with lastTick := now } }
    let res := runFrames now (elapsedFrames (now - st.room.lastTick)).toNat (st1, false, rs)
    if res.2.1 then resetPositions res.1 else res.1

/-- Ids stored in the room hash are nonempty (the network layer rejects
requests without a player id, and `getPlayers` drops records with an
empty id) and unique (the hash is keyed by id). -/
def idsOK (ps : List Player) : Prop :=
  (∀ p ∈ ps, p.id ≠ "") ∧ (ps.map (fun p => p.id)).Nodup

/-- Possession and grab invariant of a room: an unowned ball has no
holder; an owned ball names a present holder by a nonempty id; at most
one player holds the ball; a grabbed ball is held by a goalkeeper. -/
def ballInv (ps : List Player) (b : Ball) : Prop :=
  (b.ownerId = none → ∀ p ∈ ps, p.hasBall = false) ∧
  (∀ s, b.ownerId = some s → s ≠ "" ∧ ∃ p ∈ ps, p.hasBall = true ∧ p.id = s) ∧
  (∀ p ∈ ps, p.hasBall = true → ∀ q ∈ ps, q.hasBall = true → p.id = q.id) ∧
  (b.isGrabbed = true → ∃ p ∈ ps, p.hasBall = true ∧ p.isGoalkeeper = true ∧
    b.ownerId = some p.id)

/-- Full room invariant. -/
def Inv (st : RoomState) : Prop := idsOK st.players ∧ ballInv st.players st.room.ball

/-- Pointwise correspondence between a player and its update: every
field the possession invariant reads (id, team, goalkeeper role,
possession flag) is preserved. -/
def SameRole (p q : Player) : Prop :=
  q.id = p.id ∧ q.team = p.team ∧ q.isGoalkeeper = p.isGoalkeeper ∧ q.hasBall = p.hasBall

/-- Role-preserving correspondence between two player lists. -/
def Roles (ps qs : List Player) : Prop := List.Forall₂ SameRole ps qs

/-- Possession effect of the shoot and pass stages of one `handleInput`
body relative to the incoming player and ball: the possession fields are
untouched, or a held ball was released. -/
def PosRel2 (p0 : Player) (b0 : Ball) (pb : Player × Ball) : Prop :=
  pb.1.id = p0.id ∧ pb.1.team = p0.team ∧ pb.1.isGoalkeeper = p0.isGoalkeeper ∧
  ((pb.1.hasBall = p0.hasBall ∧ pb.2.ownerId = b0.ownerId ∧
      pb.2.isGrabbed = b0.isGrabbed) ∨
   (p0.hasBall = true ∧ pb.1.hasBall = false ∧ pb.2.ownerId = none ∧
      pb.2.isGrabbed = false))

/-- Reachable room states: a fresh room, then any interleaving of the
room operations.  The nonempty player id required by `joined` reflects
the request validation of the network layer. -/
inductive Reachable : RoomState → Prop where
  | init (roomId roomName : String) (now : ℝ) : Reachable (initState roomId roomName now)
  | ticked (st : RoomState) (now : ℝ) (rs : RS) :
      Reachable st → Reachable (updateGame now st rs)
  | input (st : RoomState) (pid : String) (inp : GameInput) (now : ℝ) :
      Reachable st → Reachable (handleInput st pid inp now)
  | joined (st : RoomState) (pid pname : String) (team : Team) (now rand : ℝ) :
      pid ≠ "" → Reachable st → Reachable (joinRoom st pid pname team now rand).2
  | left (st : RoomState) (pid : String) :
      Reachable st → Reachable (leaveRoom st pid)

/-- Ball x coordinate after the integration step of one frame. -/
def ballX1 (b : Ball) : ℝ := b.x + b.velocityX

/-- Ball y coordinate after the integration step and the top and bottom
wall bounce of one frame. -/
def ballY2 (b : Ball) : ℝ :=
  let y1 := b.y + b.velocityY
  if y1 < BALL_SIZE ∨ FIELD_HEIGHT - BALL_SIZE < y1 then
    max BALL_SIZE (min (FIELD_HEIGHT - BALL_SIZE) y1)
  else y1

/-- Ball y velocity after friction and a possible top or bottom wall
bounce of one frame. -/
def ballVY2 (b : Ball) : ℝ :=
  let y1 := b.y + b.velocityY
  if y1 < BALL_SIZE ∨ FIELD_HEIGHT - BALL_SIZE < y1 then
    b.velocityY * BALL_FRICTION * (-0.8)
  else b.velocityY * BALL_FRICTION

/-- Goal condition on the home (left) side, read off the frame: the ball
is within 25 px of the left goal line and strictly inside the goal
mouth. -/
def goalL (b : Ball) : Prop :=
  ballX1 b < 25 ∧ FIELD_HEIGHT / 2 - GOAL_HEIGHT / 2 < ballY2 b ∧
    ballY2 b < FIELD_HEIGHT / 2 + GOAL_HEIGHT / 2

/-- Goal condition on the away (right) side. -/
def goalR (b : Ball) : Prop :=
  FIELD_WIDTH - 25 < ballX1 b ∧ FIELD_HEIGHT / 2 - GOAL_HEIGHT / 2 < ballY2 b ∧
    ballY2 b < FIELD_HEIGHT / 2 + GOAL_HEIGHT / 2

/-- Concrete free ball two pixels from the home goal line, level with
the goal mouth. -/
def goalBallW : Ball :=
  { x := 20, y := 250, velocityX := 0, velocityY := 0, ownerId := none, isGrabbed := false }

/-- Concrete empty room about to concede on the home side. -/
def goalStateW : RoomState :=
  { room := { (initState "r" "Room" 0).room with ball := goalBallW }, players := [] }

/-- Concrete passer holding the ball at (100, 100), facing right. -/
def passerW : Player :=
  { wPlayer "p1" Team.home with x := 100, y := 100, hasBall := true }

/-- Concrete teammate at (103, 104), at distance five from the passer. -/
def mateW : Player :=
  { wPlayer "p2" Team.home with x := 103, y := 104 }

/-- Concrete room in which the passer holds the ball. -/
def passState : RoomState :=
  { room :=
      { (initState "r" "Room" 0).room with
          ball := { x := 100, y := 100, velocityX := 0, velocityY := 0,
                    ownerId := some "p1", isGrabbed := false } }
    players := [passerW, mateW] }

/-- Concrete room whose match clock has reached zero, the authoritative
match-over signal.  All other numeric fields are ordinary in-play
values. -/
def roomAtFullTime : GameRoom :=
  { id := "room1"
    name := "Match"
    ball := createInitialBall
    scoreHome := 2
    scoreAway := 1
    gameTime := 0
    isPlaying := true
    lastGoalTeam := some Team.home
    goalCelebration := 0
    lastTick := 5000
    createdAt := 1000 }

end Store

namespace WS

/-! Model of the websocket engine variant (the in-memory game server
module).  Its constants differ from the store variant: player speed 3,
shoot power 12, slide duration 30, and it tracks a goalkeeper grab
duration of 60 frames. -/

def FIELD_WIDTH : ℝ := 800
def FIELD_HEIGHT : ℝ := 500
def GOAL_HEIGHT : ℝ := 150
def PLAYER_SIZE : ℝ := 24
def BALL_SIZE : ℝ := 12
def PLAYER_SPEED : ℝ := 3
def BALL_FRICTION : ℝ := 0.98
def SHOOT_POWER : ℝ := 12
def SLIDE_SPEED : ℝ := 6
def SLIDE_DURATION : ℤ := 30
def GRAB_DURATION : ℤ := 60

/-- Player record of the websocket variant (`interface Player` there).
The socket handle is an I/O boundary object and is not part of the
state model. -/
structure Player where
  id : String
  name : String
  x : ℝ
  y : ℝ
  team : Team
  isGoalkeeper : Bool
  hasBall : Bool
  isSliding : Bool
  slideTimer : ℤ
  grabTimer : ℤ
  velocityX : ℝ
  velocityY : ℝ
  facingX : ℝ
  facingY : ℝ

/-- Input message of the websocket variant: no pass action. -/
structure WSInput where
  dx : ℝ
  dy : ℝ
  shoot : Bool
  slide : Bool
  grab : Bool

/-- Source `handlePlayerInput` of the websocket variant: movement,
shooting, sliding and the goalkeeper grab, in source order.  The grab
requires a goalkeeper and a free ball, succeeds within twice the player
size, and also arms the grab timer. -/
def handlePlayerInput (ps : List Player) (ball : Ball) (pid : String)
    (input : WSInput) : List Player × Ball :=
  match ps.find? (fun q => q.id == pid) with
  | none => (ps, ball)
  | some p0 =>
      let pM :=
        if input.dx ≠ 0 ∨ input.dy ≠ 0 then
          let magnitude := Real.sqrt (input.dx * input.dx + input.dy * input.dy)
          let pF :=
            if 0 < magnitude then
              { p0 with facingX := input.dx / magnitude, facingY := input.dy / magnitude }
            else p0
          if ¬ pF.isSliding then
            { pF with velocityX := input.dx * PLAYER_SPEED,
                      velocityY := input.dy * PLAYER_SPEED }
          else pF
        else p0
      let pbS :=
        if input.shoot ∧ pM.hasBall then
          ({ pM with hasBall := false },
           { ball with ownerId := none, isGrabbed := false,
                       velocityX := pM.facingX * SHOOT_POWER,
                       velocityY := pM.facingY * SHOOT_POWER })
        else (pM, ball)
      let pbL :=
        if input.slide ∧ ¬ pbS.1.isSliding ∧ ¬ pbS.1.hasBall then
          ({ pbS.1 with isSliding := true, slideTimer := SLIDE_DURATION }, pbS.2)
        else pbS
      let pbG :=
        if input.grab ∧ pbL.1.isGoalkeeper ∧ ¬ jsTruthy pbL.2.ownerId then
          let dx := pbL.1.x - pbL.2.x
          let dy := pbL.1.y - pbL.2.y
          if Real.sqrt (dx * dx + dy * dy) < PLAYER_SIZE * 2 then
            ({ pbL.1 with hasBall := true, grabTimer := GRAB_DURATION },
             { pbL.2 with ownerId := some pbL.1.id, isGrabbed := true })
          else pbL
        else pbL
      (ps.map (fun q => if q.id == pid then pbG.1 else q), pbG.2)

/-- Input message carrying only a grab request. -/
def grabInput : WSInput := { dx := 0, dy := 0, shoot := false, slide := false, grab := true }

/-- Concrete goalkeeper standing on the ball. -/
def keeperW : Player :=
  { id := "gk"
    name := "gk"
    x := 50
    y := 250
    team := Team.home
    isGoalkeeper := true
    hasBall := false
    isSliding := false
    slideTimer := 0
    grabTimer := 0
    velocityX := 0
    velocityY := 0
    facingX := 1
    facingY := 0 }

/-- Concrete outfield opponent away from the ball. -/
def fieldW : Player :=
  { keeperW with id := "f1", name := "f1", x := 600, team := Team.away, isGoalkeeper := false }

/-- Concrete free ball lying on the goalkeeper. -/
def freeBallW : Ball :=
  { x := 50, y := 250, velocityX := 0, velocityY := 0, ownerId := none, isGrabbed := false }

end WS

namespace AI

/-! Model of the hierarchical state machine AI for CPU players. -/

/-- HSM states for AI decision making. -/
inductive AIState where
  | idle
  | chase_ball
  | defend_goal
  | attack
  | support_attack
  | mark_player
  | intercept
  | shoot
  | pass
  | dribble
deriving DecidableEq

/-- Difficulty tiers. -/
inductive Difficulty where
  | easy
  | medium
  | hard
deriving DecidableEq

/-- Difficulty parameter set. -/
structure AIParams where
  reactionDelay : ℝ
  positioningError : ℝ
  decisionRandomness : ℝ
  passAccuracy : ℝ
  shootThreshold : ℝ
  pressureDistance : ℝ
  supportSpread : ℝ

/-- Source `DIFFICULTY_PARAMS`. -/
def DIFFICULTY_PARAMS : Difficulty → AIParams
  | Difficulty.easy =>
      { reactionDelay := 15, positioningError := 50, decisionRandomness := 0.4
        passAccuracy := 0.6, shootThreshold := 150, pressureDistance := 80
        supportSpread := 120 }
  | Difficulty.medium =>
      { reactionDelay := 8, positioningError := 25, decisionRandomness := 0.2
        passAccuracy := 0.8, shootThreshold := 200, pressureDistance := 100
        supportSpread := 100 }
  | Difficulty.hard =>
      { reactionDelay := 3, positioningError := 10, decisionRandomness := 0.08
        passAccuracy := 0.95, shootThreshold := 250, pressureDistance := 120
        supportSpread := 80 }

/-- Teammate or opponent entry of the AI context. -/
structure Mate where
  id : String
  x : ℝ
  y : ℝ
  hasBall : Bool

/-- Acting player of the AI context. -/
structure CtxPlayer where
  x : ℝ
  y : ℝ
  team : Team
  isGoalkeeper : Bool
  hasBall : Bool

/-- Ball snapshot of the AI context. -/
structure CtxBall where
  x : ℝ
  y : ℝ
  velocityX : ℝ
  velocityY : ℝ
  ownerId : Option String

/-- Source `AIContext`. -/
structure AIContext where
  player : CtxPlayer
  ball : CtxBall
  teammates : List Mate
  opponents : List Mate
  fieldWidth : ℝ
  fieldHeight : ℝ
  ownGoalX : ℝ
  opponentGoalX : ℝ

/-- Source `AIAction`. -/
structure AIAction where
  moveX : ℝ
  moveY : ℝ
  shoot : Bool
  pass : Bool
  slide : Bool

/-- Mutable fields of the `CPUAI` class: current state, dwell timer,
reaction-delay countdown, cached last decision, difficulty parameters and
the current movement target. -/
structure CPUAI where
  state : AIState
  stateTimer : ℤ
  reactionTimer : ℤ
  lastDecision : AIAction
  difficulty : Difficulty
  params : AIParams
  targetX : ℝ
  targetY : ℝ

/-- Source `distance` helper of the AI class. -/
def distance (x1 y1 x2 y2 : ℝ) : ℝ :=
  Real.sqrt ((x2 - x1) ^ 2 + (y2 - y1) ^ 2)

/-- Source `transitionTo`: on an actual state change, resets the dwell
timer and arms the reaction delay with
`floor(reactionDelay * (0.5 + random * 0.5))` ticks, consuming one
oracle value; a transition to the current state is a no-op. -/
def transitionTo (ai : CPUAI) (newState : AIState) (rs : RS) : CPUAI × RS :=
  if ai.state ≠ newState then
    ({ ai with
        state := newState
        stateTimer := 0
        reactionTimer := ⌊ai.params.reactionDelay * (0.5 + rs 0 * 0.5)⌋ }, rsTail rs)
  else (ai, rs)

/-- Source `updateState`: the HSM transition logic.  Oracle values are
consumed exactly where the source calls Math.random, honoring the
short-circuit evaluation of the source conditions. -/
def updateState (ai : CPUAI) (ctx : AIContext) (rs : RS) : CPUAI × RS :=
  let distToBall := distance ctx.player.x ctx.player.y ctx.ball.x ctx.ball.y
  let teamHasBall := ctx.teammates.any (fun t => t.hasBall) || ctx.player.hasBall
  let opponentHasBall := ctx.opponents.any (fun o => o.hasBall)
  if ctx.player.isGoalkeeper then
    if ctx.player.hasBall then transitionTo ai AIState.pass rs
    else transitionTo ai AIState.defend_goal rs
  else if ctx.player.hasBall then
    let distToGoal := |ctx.player.x - ctx.opponentGoalX|
    let underPressure := ctx.opponents.any (fun o =>
      decide (distance ctx.player.x ctx.player.y o.x o.y < ai.params.pressureDistance))
    if distToGoal < ai.params.shootThreshold then transitionTo ai AIState.shoot rs
    else if underPressure then
      if ai.params.decisionRandomness < rs 0 then transitionTo ai AIState.pass (rsTail rs)
      else transitionTo ai AIState.dribble (rsTail rs)
    else transitionTo ai AIState.dribble rs
  else if teamHasBall then transitionTo ai AIState.support_attack rs
  else if opponentHasBall then
    if distToBall < 150 then transitionTo ai AIState.chase_ball rs
    else if (0.7 : ℝ) < rs 0 then transitionTo ai AIState.chase_ball (rsTail rs)
    else transitionTo ai AIState.mark_player (rsTail rs)
  else
    if distToBall < 200 then transitionTo ai AIState.chase_ball rs
    else transitionTo ai AIState.intercept rs

/-- Source `findNearest`: nearest entity with its distance, seeded with
the first entry. -/
def findNearest (x y : ℝ) (entities : List Mate) : Option (Mate × ℝ) :=
  match entities with
  | [] => none
  | e0 :: _ =>
      some (entities.foldl
        (fun acc e =>
          if distance x y e.x e.y < acc.2 then (e, distance x y e.x e.y) else acc)
        (e0, distance x y e0.x e0.y))

/-- Source `executeState`: per-state target-point computation and action
flags, followed by the shared positioning-error jitter (two oracle
values) and the conversion of the target into a unit movement vector.
Returns the action, the AI object with its updated target, and the
remaining oracle stream.  The states idle and attack share the default
branch of the source switch. -/
def executeState (ai : CPUAI) (ctx : AIContext) (rs : RS) : (AIAction × CPUAI) × RS :=
  let action0 : AIAction := { moveX := 0, moveY := 0, shoot := false, pass := false, slide := false }
  let res : (AIAction × ℝ × ℝ) × RS :=
    match ai.state with
    | AIState.defend_goal =>
        let goalY := ctx.fieldHeight / 2
        let tX := ctx.ownGoalX + (if ctx.player.team = Team.home then (30 : ℝ) else -30)
        let tY := max (goalY - 60) (min (goalY + 60) ctx.ball.y)
        let tY :=
          if 1 < |ctx.ball.velocityX| then
            let timeToGoal := |ctx.ownGoalX - ctx.ball.x| / |ctx.ball.velocityX|
            ctx.ball.y + ctx.ball.velocityY * timeToGoal * 0.5
          else tY
        let tY := max (goalY - 70) (min (goalY + 70) tY)
        ((action0, tX, tY), rs)
    | AIState.chase_ball =>
        let tX := ctx.ball.x + ctx.ball.velocityX * 5
        let tY := ctx.ball.y + ctx.ball.velocityY * 5
        let distToBall := distance ctx.player.x ctx.player.y ctx.ball.x ctx.ball.y
        if distToBall < 40 ∧ jsTruthy ctx.ball.ownerId = true ∧
            (ctx.opponents.any (fun o => ctx.ball.ownerId == some o.id)) = true then
          if (0.7 : ℝ) < rs 0 then (({ action0 with slide := true }, tX, tY), rsTail rs)
          else ((action0, tX, tY), rsTail rs)
        else ((action0, tX, tY), rs)
    | AIState.support_attack =>
        match ctx.teammates.find? (fun t => t.hasBall) with
        | some ballCarrier =>
            let ahead : ℝ := if ctx.player.team = Team.home then 1 else -1
            let tX := ballCarrier.x + ahead * ai.params.supportSpread
            let myIndex : ℤ :=
              match ctx.teammates.findIdx? (fun t =>
                decide (distance t.x t.y ctx.player.x ctx.player.y < 5)) with
              | some i => (i : ℤ)
              | none => -1
            let vertOffset : ℝ := ((Int.tmod myIndex 3 - 1 : ℤ) : ℝ) * 80
            let tY := ballCarrier.y + vertOffset
            let tX := max 100 (min (ctx.fieldWidth - 100) tX)
            let tY := max 60 (min (ctx.fieldHeight - 60) tY)
            ((action0, tX, tY), rs)
        | none => ((action0, ai.targetX, ai.targetY), rs)
    | AIState.mark_player =>
        let scan := ctx.opponents.foldl
          (fun (acc : Option Mate × Option ℝ) o =>
            let d := distance ctx.player.x ctx.player.y o.x o.y
            let closer : Bool :=
              match acc.2 with
              | none => true
              | some m => decide (d < m)
            if closer && !o.hasBall then (some o, some d) else acc)
          (ctx.opponents.head?, none)
        match scan.1 with
        | some nearestOpp =>
            ((action0, nearestOpp.x + (ctx.ownGoalX - nearestOpp.x) * 0.3, nearestOpp.y), rs)
        | none => ((action0, ai.targetX, ai.targetY), rs)
    | AIState.intercept =>
        let predictTime : ℝ := 20
        let tX := ctx.ball.x + ctx.ball.velocityX * predictTime
        let tY := ctx.ball.y + ctx.ball.velocityY * predictTime
        let tX := max 30 (min (ctx.fieldWidth - 30) tX)
        let tY := max 30 (min (ctx.fieldHeight - 30) tY)
        ((action0, tX, tY), rs)
    | AIState.shoot =>
        let goalY := ctx.fieldHeight / 2 + (rs 0 - 0.5) * 100
        let facingGoal :=
          if ctx.player.team = Team.home then ctx.player.x < ctx.opponentGoalX
          else ctx.opponentGoalX < ctx.player.x
        if facingGoal ∧ 10 < ai.stateTimer then
          (({ action0 with shoot := true }, ctx.opponentGoalX, goalY), rsTail rs)
        else ((action0, ctx.opponentGoalX, goalY), rsTail rs)
    | AIState.pass =>
        let scan := ctx.teammates.foldl
          (fun (acc : (Option Mate × Option ℝ) × RS) tm =>
            if distance tm.x tm.y ctx.player.x ctx.player.y < 30 then acc
            else
              let upField :=
                if ctx.player.team = Team.home then tm.x - ctx.player.x
                else ctx.player.x - tm.x
              let score := upField * 0.5
              let score := score +
                (match findNearest tm.x tm.y ctx.opponents with
                 | some nd => nd.2 * 0.3
                 | none => 0)
              let score := score + (acc.2 0 - 0.5) * (1 - ai.params.passAccuracy) * 200
              let keep : Bool :=
                match acc.1.2 with
                | none => false
                | some bs => decide (score ≤ bs)
              if keep then (acc.1, rsTail acc.2)
              else ((some tm, some score), rsTail acc.2))
          ((ctx.teammates.head?, none), rs)
        match scan.1.1 with
        | some bestTarget =>
            if 5 < ai.stateTimer then
              (({ action0 with pass := true }, bestTarget.x, bestTarget.y), scan.2)
            else ((action0, ai.targetX, ai.targetY), scan.2)
        | none => ((action0, ai.targetX, ai.targetY), scan.2)
    | AIState.dribble =>
        let tY := ctx.opponents.foldl
          (fun ty o =>
            if distance ctx.player.x ctx.player.y o.x o.y < 60 then
              ty + (if 0 < ctx.player.y - o.y then (30 : ℝ) else -30)
            else ty)
          ctx.player.y
        let tY := max 80 (min (ctx.fieldHeight - 80) tY)
        ((action0, ctx.opponentGoalX, tY), rs)
    | _ =>
        let defaultX :=
          if ctx.player.team = Team.home then ctx.fieldWidth * 0.35
          else ctx.fieldWidth * 0.65
        ((action0, defaultX, ctx.fieldHeight / 2), rs)
  let rs1 := res.2
  let tX := res.1.2.1 + (rs1 0 - 0.5) * ai.params.positioningError
  let tY := res.1.2.2 + (rsTail rs1 0 - 0.5) * ai.params.positioningError
  let rs2 := rsTail (rsTail rs1)
  let dx := tX - ctx.player.x
  let dy := tY - ctx.player.y
  let dist := Real.sqrt (dx * dx + dy * dy)
  let action := res.1.1
  let action :=
    if 5 < dist then { action with moveX := dx / dist, moveY := dy / dist }
    else action
  ((action, { ai with targetX := tX, targetY := tY }), rs2)

/-- Recompute branch of `CPUAI.update`: transition evaluation, state
behavior, optional decision-randomness jitter (one oracle value, plus two
more when the jitter fires), then caching of the decision and dwell-timer
increment. -/
def updateCompute (ai : CPUAI) (ctx : AIContext) (rs : RS) : (AIAction × CPUAI) × RS :=
  let s1 := updateState ai ctx rs
  let s2 := executeState s1.1 ctx s1.2
  let action := s2.1.1
  let ai2 := s2.1.2
  let rs2 := s2.2
  let jit :=
    if rs2 0 < ai2.params.decisionRandomness then
      ({ action with
          moveX := action.moveX + (rsTail rs2 0 - 0.5) * 0.5
          moveY := action.moveY + (rsTail (rsTail rs2) 0 - 0.5) * 0.5 },
       rsTail (rsTail (rsTail rs2)))
    else (action, rsTail rs2)
  ((jit.1, { ai2 with lastDecision := jit.1, stateTimer := ai2.stateTimer + 1 }), jit.2)

/-- Source `CPUAI.update`: while the reaction countdown is positive it is
decremented and the cached decision is returned unchanged, without
touching the oracle; otherwise the decision pipeline runs. -/
def update (ai : CPUAI) (ctx : AIContext) (rs : RS) : (AIAction × CPUAI) × RS :=
  if 0 < ai.reactionTimer then
    ((ai.lastDecision, { ai with reactionTimer := ai.reactionTimer - 1 }), rs)
  else updateCompute ai ctx rs

/-- Repeated calls of `update`, each with its own context and oracle
stream; returns the AI object before call `n`. -/
def runAI (env : ℕ → AIContext × RS) (ai : CPUAI) : ℕ → CPUAI
  | 0 => ai
  | n + 1 => (update (runAI env ai n) (env n).1 (env n).2).1.2

/-- Action returned by call `n` of `update`. -/
def actionAt (env : ℕ → AIContext × RS) (ai : CPUAI) (n : ℕ) : AIAction :=
  (update (runAI env ai n) (env n).1 (env n).2).1.1

/-- Concrete cached action used by the concrete instances. -/
def actW : AIAction := { moveX := 1, moveY := 0, shoot := false, pass := false, slide := false }

/-- Concrete AI instance three ticks into a reaction delay. -/
def aiW : CPUAI :=
  { state := AIState.idle
    stateTimer := 4
    reactionTimer := 3
    lastDecision := actW
    difficulty := Difficulty.medium
    params := DIFFICULTY_PARAMS Difficulty.medium
    targetX := 280
    targetY := 250 }

/-- Concrete AI context. -/
def ctxW : AIContext :=
  { player := { x := 200, y := 250, team := Team.home, isGoalkeeper := false, hasBall := false }
    ball := { x := 400, y := 250, velocityX := 0, velocityY := 0, ownerId := none }
    teammates := []
    opponents := []
    fieldWidth := 800
    fieldHeight := 500
    ownGoalX := 0
    opponentGoalX := 800 }

/-- Concrete environment feeding `update`. -/
def envW : ℕ → AIContext × RS := fun _ => (ctxW, fun _ => (1 : ℝ) / 2)

end AI

end

end Soccer

namespace Soccer.Store

noncomputable section

/-- C5: the serialize/parse round trip is not lossless: a room whose
match clock `gameTime` is 0 (the authoritative match-over signal) parses
back with `gameTime = 180`, because `parseRoom` applies the JavaScript
falsy default `Number(obj.gameTime) || 180` and 0 is falsy.  All the
other fields of this room survive the round trip, so the divergence is
exactly on the field the claim singles out. -/
theorem roundTrip_gameTime_not_preserved :
    roomAtFullTime.gameTime = 0 ∧
    (parseRoom (serializeRoom roomAtFullTime 6000) 6000).gameTime = 180 ∧
    (parseRoom (serializeRoom roomAtFullTime 6000) 6000).id = roomAtFullTime.id ∧
    (parseRoom (serializeRoom roomAtFullTime 6000) 6000).scoreHome = roomAtFullTime.scoreHome ∧
    (parseRoom (serializeRoom roomAtFullTime 6000) 6000).isPlaying = roomAtFullTime.isPlaying := by
  refine ⟨rfl, ?_, ?_, ?_, ?_⟩ <;>
    simp [parseRoom, serializeRoom, roomAtFullTime, jsOrZ, jsOrN, jsOrS, jsOrR]

/-- C9: joining an existing room with a fresh player id fails with the
explicit team-full outcome when the requested team already holds five
players — `joinRoom` returns null, the route answers with a 400 error
response, and the room state (players, ball, score) is untouched — and
succeeds with the created player snapshot when the team holds fewer than
five. -/
theorem joinRoom_teamCapacity (st : RoomState) (pid pname : String) (team : Team)
    (now rand : ℝ)
    (hnew : st.players.find? (fun q => q.id == pid) = none) :
    (5 ≤ teamCount st.players team →
      joinRoom st pid pname team now rand = (none, st) ∧
      apiJoin (joinRoom st pid pname team now rand).1 =
        ApiResp.error 400 "Failed to join room - team may be full") ∧
    (teamCount st.players team < 5 →
      ∃ p, joinRoom st pid pname team now rand =
          (some p, { st with players := st.players ++ [p] }) ∧
        p.id = pid ∧ p.team = team ∧ p.hasBall = false ∧
        apiJoin (joinRoom st pid pname team now rand).1 = ApiResp.ok) := by
  constructor
  · intro h5
    have hcond : (team = Team.home ∧ 5 ≤ teamCount st.players Team.home) ∨
        (team = Team.away ∧ 5 ≤ teamCount st.players Team.away) := by
      cases team
      · exact Or.inl ⟨rfl, h5⟩
      · exact Or.inr ⟨rfl, h5⟩
    have hmain : joinRoom st pid pname team now rand = (none, st) := by
      unfold joinRoom
      rw [hnew]
      simp only [if_pos hcond]
    exact ⟨hmain, by rw [hmain]; rfl⟩
  · intro hlt
    have hcond : ¬ ((team = Team.home ∧ 5 ≤ teamCount st.players Team.home) ∨
        (team = Team.away ∧ 5 ≤ teamCount st.players Team.away)) := by
      rintro (⟨ht, h5⟩ | ⟨ht, h5⟩) <;> subst ht <;> omega
    refine ⟨freshPlayer st pid pname team now rand, ?_, rfl, rfl, rfl, ?_⟩
    · unfold joinRoom
      rw [hnew]
      simp only [if_neg hcond]
    · unfold joinRoom
      rw [hnew]
      simp only [if_neg hcond]
      rfl

/-- Witness for C9 at a concrete full home team. -/
theorem joinRoom_teamCapacity_witness :
    fullHomeState.players.find? (fun q => q.id == "p6") = none ∧
    5 ≤ teamCount fullHomeState.players Team.home ∧
    joinRoom fullHomeState "p6" "Zed" Team.home 1 0 = (none, fullHomeState) :=
  ⟨rfl, by decide,
    ((joinRoom_teamCapacity fullHomeState "p6" "Zed" Team.home 1 0 rfl).1 (by decide)).1⟩

/-- C10: joining with a player id already present in the room returns the
existing player with only the activity timestamp refreshed — team,
position, goalkeeper role and possession flags are unchanged — and this
path never yields the team-full failure, whatever team is requested and
however full it is. -/
theorem joinRoom_existingPlayer (st : RoomState) (pid pname : String) (team : Team)
    (now rand : ℝ) (p : Player)
    (hp : st.players.find? (fun q => q.id == pid) = some p) :
    joinRoom st pid pname team now rand =
      (some { p with lastUpdate := now },
       { st with players := refreshPlayers st.players pid now }) ∧
    ({ p with lastUpdate := now }).team = p.team ∧
    ({ p with lastUpdate := now }).x = p.x ∧
    ({ p with lastUpdate := now }).y = p.y ∧
    ({ p with lastUpdate := now }).isGoalkeeper = p.isGoalkeeper ∧
    ({ p with lastUpdate := now }).hasBall = p.hasBall ∧
    ({ p with lastUpdate := now }).lastUpdate = now ∧
    apiJoin (joinRoom st pid pname team now rand).1 = ApiResp.ok := by
  have hmain : joinRoom st pid pname team now rand =
      (some { p with lastUpdate := now },
       { st with players := refreshPlayers st.players pid now }) := by
    unfold joinRoom
    rw [hp]
  exact ⟨hmain, rfl, rfl, rfl, rfl, rfl, rfl, by rw [hmain]; rfl⟩

/-- One frame never changes the tick stamp, the playing flag or the
creation stamp of the room. -/
theorem frame_roomConst (now : ℝ) (acc : RoomState × Bool × RS) :
    (frame now acc).1.room.lastTick = acc.1.room.lastTick ∧
    (frame now acc).1.room.isPlaying = acc.1.room.isPlaying ∧
    (frame now acc).1.room.createdAt = acc.1.room.createdAt := by
  simp only [frame]
  split
  · exact ⟨rfl, rfl, rfl⟩
  · split <;> refine ⟨?_, ?_, ?_⟩ <;> simp [apply_ite]

/-- The frame loop never changes the tick stamp, the playing flag or the
creation stamp of the room. -/
theorem runFrames_roomConst (now : ℝ) :
    ∀ (n : ℕ) (acc : RoomState × Bool × RS),
      (runFrames now n acc).1.room.lastTick = acc.1.room.lastTick ∧
      (runFrames now n acc).1.room.isPlaying = acc.1.room.isPlaying ∧
      (runFrames now n acc).1.room.createdAt = acc.1.room.createdAt := by
  intro n
  induction n with
  | zero => intro acc; exact ⟨rfl, rfl, rfl⟩
  | succ n ih =>
      intro acc
      have h1 := frame_roomConst now acc
      have h2 := ih (frame now acc)
      exact ⟨h2.1.trans h1.1, h2.2.1.trans h1.2.1, h2.2.2.trans h1.2.2⟩

/-- The kickoff reset never changes the tick stamp, the playing flag or
the creation stamp of the room. -/
theorem resetPositions_roomConst (st : RoomState) :
    (resetPositions st).room.lastTick = st.room.lastTick ∧
    (resetPositions st).room.isPlaying = st.room.isPlaying ∧
    (resetPositions st).room.createdAt = st.room.createdAt :=
  ⟨rfl, rfl, rfl⟩

/-- A gate-passing `updateGame` call stamps the tick time and keeps the
playing flag. -/
theorem updateGame_lastTick (now : ℝ) (st : RoomState) (rs : RS)
    (hplay : st.room.isPlaying = true) (hge : 16 ≤ now - st.room.lastTick) :
    (updateGame now st rs).room.lastTick = now ∧
    (updateGame now st rs).room.isPlaying = true := by
  have hplay2 : ¬ st.room.isPlaying = false := by simp [hplay]
  have h1 := runFrames_roomConst now (elapsedFrames (now - st.room.lastTick)).toNat
    ({ st with room := { st.room with lastTick := now } }, false, rs)
  simp only [updateGame]
  rw [if_neg hplay2, if_neg (not_lt.mpr hge)]
  split
  · refine ⟨?_, ?_⟩
    · rw [(resetPositions_roomConst _).1, h1.1]
    · rw [(resetPositions_roomConst _).2.1, h1.2.1]
      exact hplay
  · exact ⟨h1.1, h1.2.1.trans hplay⟩

/-- Counterexample to the claimed catch-up formula: at 50 elapsed
milliseconds the code divisor 16.67 yields two frames while the claimed
tick duration 1000 / 60 yields three. -/
theorem elapsedFrames_spec_mismatch :
    elapsedFrames 50 = 2 ∧ specElapsedTicks 50 = 3 ∧
    elapsedFrames 50 ≠ specElapsedTicks 50 := by
  have h1 : elapsedFrames 50 = 2 := by
    unfold elapsedFrames
    have hf : ⌊(50 : ℝ) / (1667 / 100)⌋ = 2 := by
      rw [Int.floor_eq_iff]
      norm_num
    rw [hf]
    norm_num
  have h2 : specElapsedTicks 50 = 3 := by
    unfold specElapsedTicks
    have hf : ⌊(50 : ℝ) / (1000 / 60)⌋ = 3 := by
      rw [Int.floor_eq_iff]
      norm_num
    rw [hf]
    norm_num
  exact ⟨h1, h2, by rw [h1, h2]; norm_num⟩

/-- C4 (amended): past the 16 ms gate the call simulates exactly
`min(10, floor(deltaMs / 16.67))` frames (the divisor is the literal
16.67, not 1000 / 60); below the gate the call is a no-op; and a second
call less than one tick after a gate-passing call simulates zero
frames. -/
theorem updateGame_catchupSpec (st : RoomState) (now now2 : ℝ) (rs : RS)
    (hplay : st.room.isPlaying = true) :
    (16 ≤ now - st.room.lastTick →
      updateGameFrames now st =
        (min 10 ⌊(now - st.room.lastTick) / (1667 / 100)⌋).toNat) ∧
    (now - st.room.lastTick < 16 →
      updateGame now st rs = st ∧ updateGameFrames now st = 0) ∧
    (16 ≤ now - st.room.lastTick → now2 - now < 1667 / 100 →
      updateGameFrames now2 (updateGame now st rs) = 0) := by
  have hplay2 : ¬ st.room.isPlaying = false := by simp [hplay]
  refine ⟨?_, ?_, ?_⟩
  · intro hge
    unfold updateGameFrames
    rw [if_neg hplay2, if_neg (not_lt.mpr hge)]
    rfl
  · intro hlt
    constructor
    · unfold updateGame
      rw [if_neg hplay2, if_pos hlt]
    · unfold updateGameFrames
      rw [if_neg hplay2, if_pos hlt]
  · intro hge hlt2
    obtain ⟨hstamp, hplay3⟩ := updateGame_lastTick now st rs hplay hge
    have hplay4 : ¬ (updateGame now st rs).room.isPlaying = false := by simp [hplay3]
    unfold updateGameFrames
    rw [if_neg hplay4, hstamp]
    by_cases hlt16 : now2 - now < 16
    · rw [if_pos hlt16]
    · rw [if_neg hlt16]
      have hge0 : (0 : ℝ) ≤ now2 - now := by
        have := not_lt.mp hlt16
        linarith
      have hf : ⌊(now2 - now) / (1667 / 100)⌋ = 0 := by
        rw [Int.floor_eq_iff]
        constructor
        · push_cast
          positivity
        · push_cast
          rw [div_lt_iff₀ (by norm_num)]
          linarith
      unfold elapsedFrames
      rw [hf]
      rfl

/-- Witness for C4 at a fresh room ticked at 100 ms and again at
110 ms. -/
theorem updateGame_catchupSpec_witness :
    (initState "r" "Tick" 0).room.isPlaying = true ∧
    16 ≤ (100 : ℝ) - (initState "r" "Tick" 0).room.lastTick ∧
    (110 : ℝ) - 100 < 1667 / 100 ∧
    updateGameFrames 110 (updateGame 100 (initState "r" "Tick" 0) (fun _ => 0)) = 0 := by
  have h1 : (initState "r" "Tick" 0).room.isPlaying = true := rfl
  have h2 : 16 ≤ (100 : ℝ) - (initState "r" "Tick" 0).room.lastTick := by
    norm_num [initState]
  have h3 : (110 : ℝ) - 100 < 1667 / 100 := by norm_num
  exact ⟨h1, h2, h3,
    (updateGame_catchupSpec (initState "r" "Tick" 0) 100 110 (fun _ => 0) h1).2.2 h2 h3⟩

/-- A player without the ball never moves the ball during the player
update block. -/
theorem playerStep_ball_noHolder (b : Ball) (p : Player) (h : p.hasBall = false) :
    (playerStep b p).2 = b := by
  simp only [playerStep]
  split_ifs <;> simp_all

/-- With no holder present, the player update loop leaves the ball
untouched. -/
theorem playersUpdate_noHolder :
    ∀ (ps : List Player) (b : Ball), (∀ p ∈ ps, p.hasBall = false) →
      (playersUpdate ps b).2 = b := by
  intro ps
  induction ps with
  | nil => intro b _; rfl
  | cons p rest ih =>
      intro b hall
      show (playersUpdate rest (playerStep b p).2).2 = b
      rw [playerStep_ball_noHolder b p (hall p (List.mem_cons_self p rest))]
      exact ih b (fun q hq => hall q (List.mem_cons_of_mem _ hq))

/-- Left-side goal outcome of the free-ball physics. -/
theorem ballStep_goalLeft (b : Ball) (hown : b.ownerId = none) (hL : goalL b) :
    ballStep b =
      ({ b with
          x := ballX1 b
          y := ballY2 b
          velocityX := b.velocityX * BALL_FRICTION
          velocityY := ballVY2 b },
       some Team.away) := by
  have hguard : ¬ jsTruthy b.ownerId = true := by
    rw [hown]
    simp [jsTruthy]
  simp only [goalL, ballX1, ballY2] at hL
  simp only [ballStep, ballX1, ballY2, ballVY2]
  rw [if_neg hguard, if_pos hL]

/-- Right-side goal outcome of the free-ball physics. -/
theorem ballStep_goalRight (b : Ball) (hown : b.ownerId = none)
    (hnL : ¬ goalL b) (hR : goalR b) :
    ballStep b =
      ({ b with
          x := ballX1 b
          y := ballY2 b
          velocityX := b.velocityX * BALL_FRICTION
          velocityY := ballVY2 b },
       some Team.home) := by
  have hguard : ¬ jsTruthy b.ownerId = true := by
    rw [hown]
    simp [jsTruthy]
  simp only [goalL, ballX1, ballY2] at hnL
  simp only [goalR, ballX1, ballY2] at hR
  simp only [ballStep, ballX1, ballY2, ballVY2]
  rw [if_neg hguard, if_neg hnL, if_pos hR]

/-- With neither goal condition met, the free-ball physics scores
nothing. -/
theorem ballStep_noGoal (b : Ball) (hown : b.ownerId = none)
    (hnL : ¬ goalL b) (hnR : ¬ goalR b) :
    (ballStep b).2 = none := by
  have hguard : ¬ jsTruthy b.ownerId = true := by
    rw [hown]
    simp [jsTruthy]
  simp only [goalL, ballX1, ballY2] at hnL
  simp only [goalR, ballX1, ballY2] at hnR
  simp only [ballStep, ballX1, ballY2, ballVY2]
  rw [if_neg hguard, if_neg hnL, if_neg hnR]

/-- The two goal mouths cannot be hit in the same frame. -/
theorem goal_exclusive (b : Ball) : ¬ (goalL b ∧ goalR b) := by
  rintro ⟨⟨h1, _⟩, ⟨h2, _⟩⟩
  unfold FIELD_WIDTH at h2
  linarith

/-- C3: goal test of one tick.  On a tick with an unowned ball (and so
no holder), a goal is scored exactly when the post-integration,
post-bounce ball position is within 25 px of a goal line and strictly
inside the goal mouth; at most one side can score; on a goal exactly the
conceding side of the pitch credits the opposing team, the last-goal-team
marker is set, the celebration counter is set to its full duration of
150 ticks (inside the 120 to 150 range), and the side-wall reflection is
skipped: the ball keeps its post-integration x and its post-friction x
velocity; with no goal, scores and celebration are unchanged. -/
theorem frame_goalSpec (now : ℝ) (st : RoomState) (nr : Bool) (rs : RS)
    (hcel : st.room.goalCelebration ≤ 0)
    (hown : st.room.ball.ownerId = none)
    (hfree : ∀ p ∈ st.players, p.hasBall = false) :
    ¬ (goalL st.room.ball ∧ goalR st.room.ball) ∧
    ((frame now (st, nr, rs)).1.room.scoreAway = st.room.scoreAway + 1 ↔
      goalL st.room.ball) ∧
    ((frame now (st, nr, rs)).1.room.scoreHome = st.room.scoreHome + 1 ↔
      goalR st.room.ball) ∧
    (goalL st.room.ball →
      (frame now (st, nr, rs)).1.room.lastGoalTeam = some Team.away ∧
      (frame now (st, nr, rs)).1.room.goalCelebration = 150 ∧
      (frame now (st, nr, rs)).1.room.scoreHome = st.room.scoreHome ∧
      (frame now (st, nr, rs)).1.room.ball.x = ballX1 st.room.ball ∧
      (frame now (st, nr, rs)).1.room.ball.velocityX =
        st.room.ball.velocityX * BALL_FRICTION) ∧
    (goalR st.room.ball →
      (frame now (st, nr, rs)).1.room.lastGoalTeam = some Team.home ∧
      (frame now (st, nr, rs)).1.room.goalCelebration = 150 ∧
      (frame now (st, nr, rs)).1.room.scoreAway = st.room.scoreAway ∧
      (frame now (st, nr, rs)).1.room.ball.x = ballX1 st.room.ball ∧
      (frame now (st, nr, rs)).1.room.ball.velocityX =
        st.room.ball.velocityX * BALL_FRICTION) ∧
    (¬ goalL st.room.ball → ¬ goalR st.room.ball →
      (frame now (st, nr, rs)).1.room.scoreAway = st.room.scoreAway ∧
      (frame now (st, nr, rs)).1.room.scoreHome = st.room.scoreHome ∧
      (frame now (st, nr, rs)).1.room.goalCelebration = st.room.goalCelebration) := by
  have hcel2 : ¬ 0 < st.room.goalCelebration := not_lt.mpr hcel
  have hb2 : (playersUpdate st.players
      (if 0 < st.room.gameTime then
        { st.room with gameTime := max 0 (180 - ⌊(now - st.room.createdAt) / 1000⌋) }
      else st.room).ball).2 = st.room.ball := by
    have hballs : (if 0 < st.room.gameTime then
        { st.room with gameTime := max 0 (180 - ⌊(now - st.room.createdAt) / 1000⌋) }
      else st.room).ball = st.room.ball := by
      split <;> rfl
    rw [hballs]
    exact playersUpdate_noHolder st.players st.room.ball hfree
  have hsa : (if 0 < st.room.gameTime then
      { st.room with gameTime := max 0 (180 - ⌊(now - st.room.createdAt) / 1000⌋) }
    else st.room).scoreAway = st.room.scoreAway := by
    split <;> rfl
  have hsh : (if 0 < st.room.gameTime then
      { st.room with gameTime := max 0 (180 - ⌊(now - st.room.createdAt) / 1000⌋) }
    else st.room).scoreHome = st.room.scoreHome := by
    split <;> rfl
  have hgc : (if 0 < st.room.gameTime then
      { st.room with gameTime := max 0 (180 - ⌊(now - st.room.createdAt) / 1000⌋) }
    else st.room).goalCelebration = st.room.goalCelebration := by
    split <;> rfl
  refine ⟨goal_exclusive st.room.ball, ?_⟩
  by_cases hL : goalL st.room.ball
  · have hnR : ¬ goalR st.room.ball := fun hR => goal_exclusive st.room.ball ⟨hL, hR⟩
    have hstep := ballStep_goalLeft st.room.ball hown hL
    simp only [frame]
    rw [if_neg hcel2, hb2, hstep]
    refine ⟨?_, ?_, ?_, ?_, ?_⟩
    · simp only [hsa]
      simp [hL]
    · simp only [hsh]
      simp [hnR]
    · intro _
      refine ⟨?_, ?_, ?_, ?_, ?_⟩ <;> simp [hsh]
    · intro hR
      exact absurd hR hnR
    · intro hnL _
      exact absurd hL hnL
  · by_cases hR : goalR st.room.ball
    · have hstep := ballStep_goalRight st.room.ball hown hL hR
      simp only [frame]
      rw [if_neg hcel2, hb2, hstep]
      refine ⟨?_, ?_, ?_, ?_, ?_⟩
      · simp only [hsa]
        simp [hL]
      · simp only [hsh]
        simp [hR]
      · intro hLL
        exact absurd hLL hL
      · intro _
        refine ⟨?_, ?_, ?_, ?_, ?_⟩ <;> simp [hsa]
      · intro _ hnR
        exact absurd hR hnR
    · have hg := ballStep_noGoal st.room.ball hown hL hR
      simp only [frame]
      rw [if_neg hcel2, hb2, hg]
      refine ⟨?_, ?_, ?_, ?_, ?_⟩
      · simp only [hsa]
        simp [hL]
      · simp only [hsh]
        simp [hR]
      · intro hLL
        exact absurd hLL hL
      · intro hRR
        exact absurd hRR hR
      · intro _ _
        exact ⟨by simp [hsa], by simp [hsh], by simp [hgc]⟩

/-- Witness for C3 at a concrete empty room whose free ball sits two
pixels from the home goal line, inside the goal mouth: the frame credits
the away team. -/
theorem frame_goalSpec_witness :
    goalStateW.room.goalCelebration ≤ 0 ∧
    goalStateW.room.ball.ownerId = none ∧
    goalL goalStateW.room.ball ∧
    ((frame 0 (goalStateW, false, fun _ => 0)).1.room.scoreAway =
        goalStateW.room.scoreAway + 1 ↔ goalL goalStateW.room.ball) := by
  have hgl : goalL goalStateW.room.ball := by
    unfold goalL ballX1 ballY2 goalStateW goalBallW BALL_SIZE FIELD_HEIGHT GOAL_HEIGHT
    norm_num
  refine ⟨by norm_num [goalStateW, initState], rfl, hgl, ?_⟩
  exact (frame_goalSpec 0 goalStateW false (fun _ => 0)
    (by norm_num [goalStateW, initState]) rfl (by simp [goalStateW])).2.1

/-- Any result of the receiver scan carries its own adjusted distance, is
an eligible teammate among the scanned players (or was the incoming
accumulator), and its adjusted distance is minimal among the scanned
eligible teammates and never above the incoming accumulator. -/
theorem fntFold_spec (f : Player) :
    ∀ (ps : List Player) (acc : Option (Player × ℝ)),
      (∀ q0 m0, acc = some (q0, m0) → m0 = adjustedDist f q0) →
      ∀ q m, ps.foldl (fntStep f) acc = some (q, m) →
        m = adjustedDist f q ∧
        ((q ∈ ps ∧ ¬ (q.id = f.id ∨ q.team ≠ f.team)) ∨ acc = some (q, m)) ∧
        (∀ u ∈ ps, ¬ (u.id = f.id ∨ u.team ≠ f.team) → m ≤ adjustedDist f u) ∧
        (∀ q0 m0, acc = some (q0, m0) → m ≤ m0) := by
  intro ps
  induction ps with
  | nil =>
      intro acc hacc q m hres
      simp only [List.foldl_nil] at hres
      refine ⟨hacc q m hres, Or.inr hres, by simp, ?_⟩
      intro q0 m0 h0
      rw [h0] at hres
      have := (Option.some.injEq _ _).mp hres
      have hm : m0 = m := congrArg Prod.snd this
      exact le_of_eq hm.symm
  | cons p rest ih =>
      intro acc hacc q m hres
      simp only [List.foldl_cons] at hres
      by_cases hskip : p.id = f.id ∨ p.team ≠ f.team
      · have hstep : fntStep f acc p = acc := by
          simp [fntStep, hskip]
        rw [hstep] at hres
        obtain ⟨h1, h2, h3, h4⟩ := ih acc hacc q m hres
        refine ⟨h1, ?_, ?_, h4⟩
        · rcases h2 with ⟨hq, he⟩ | h2
          · exact Or.inl ⟨List.mem_cons_of_mem _ hq, he⟩
          · exact Or.inr h2
        · intro u hu helig
          rcases List.mem_cons.mp hu with rfl | hu
          · exact absurd hskip helig
          · exact h3 u hu helig
      · cases haccE : acc with
        | none =>
            have hstep : fntStep f acc p = some (p, adjustedDist f p) := by
              simp [fntStep, hskip, haccE]
            rw [hstep] at hres
            have haccOK : ∀ q0 m0, (some (p, adjustedDist f p) : Option (Player × ℝ)) =
                some (q0, m0) → m0 = adjustedDist f q0 := by
              intro q0 m0 h0
              have := (Option.some.injEq _ _).mp h0
              have hq0 : p = q0 := congrArg Prod.fst this
              have hm0 : adjustedDist f p = m0 := congrArg Prod.snd this
              rw [← hq0, ← hm0]
            obtain ⟨h1, h2, h3, h4⟩ := ih _ haccOK q m hres
            refine ⟨h1, ?_, ?_, ?_⟩
            · rcases h2 with ⟨hq, he⟩ | h2
              · exact Or.inl ⟨List.mem_cons_of_mem _ hq, he⟩
              · have := (Option.some.injEq _ _).mp h2.symm
                have hq0 : q = p := congrArg Prod.fst this
                exact Or.inl ⟨by rw [hq0]; exact List.mem_cons_self _ _, by rw [hq0]; exact hskip⟩
            · intro u hu helig
              rcases List.mem_cons.mp hu with rfl | hu
              · exact h4 u (adjustedDist f u) rfl
              · exact h3 u hu helig
            · intro q0 m0 h0
              cases h0
        | some pm =>
            obtain ⟨q0a, m0a⟩ := pm
            have hm0a : m0a = adjustedDist f q0a := hacc q0a m0a haccE
            by_cases hlt : adjustedDist f p < m0a
            · have hstep : fntStep f acc p = some (p, adjustedDist f p) := by
                simp [fntStep, hskip, haccE, hlt]
              rw [hstep] at hres
              have haccOK : ∀ q0 m0, (some (p, adjustedDist f p) : Option (Player × ℝ)) =
                  some (q0, m0) → m0 = adjustedDist f q0 := by
                intro q0 m0 h0
                have := (Option.some.injEq _ _).mp h0
                have hq0 : p = q0 := congrArg Prod.fst this
                have hm0 : adjustedDist f p = m0 := congrArg Prod.snd this
                rw [← hq0, ← hm0]
              obtain ⟨h1, h2, h3, h4⟩ := ih _ haccOK q m hres
              refine ⟨h1, ?_, ?_, ?_⟩
              · rcases h2 with ⟨hq, he⟩ | h2
                · exact Or.inl ⟨List.mem_cons_of_mem _ hq, he⟩
                · have := (Option.some.injEq _ _).mp h2.symm
                  have hq0 : q = p := congrArg Prod.fst this
                  exact Or.inl ⟨by rw [hq0]; exact List.mem_cons_self _ _, by rw [hq0]; exact hskip⟩
              · intro u hu helig
                rcases List.mem_cons.mp hu with rfl | hu
                · exact h4 u (adjustedDist f u) rfl
                · exact h3 u hu helig
              · intro q0 m0 h0
                have := (Option.some.injEq _ _).mp h0
                have hm0 : m0a = m0 := congrArg Prod.snd this
                have hle : m ≤ adjustedDist f p := h4 p (adjustedDist f p) rfl
                rw [← hm0]
                exact le_trans hle (le_of_lt hlt)
            · have hstep : fntStep f acc p = acc := by
                simp [fntStep, hskip, haccE, hlt]
              rw [hstep] at hres
              obtain ⟨h1, h2, h3, h4⟩ := ih acc hacc q m hres
              rw [haccE] at h2 h4
              refine ⟨h1, ?_, ?_, h4⟩
              · rcases h2 with ⟨hq, he⟩ | h2
                · exact Or.inl ⟨List.mem_cons_of_mem _ hq, he⟩
                · exact Or.inr h2
              · intro u hu helig
                rcases List.mem_cons.mp hu with rfl | hu
                · have hle : m ≤ m0a := h4 q0a m0a rfl
                  exact le_trans hle (not_lt.mp hlt)
                · exact h3 u hu helig

/-- The receiver chosen by `findNearestTeammate` is a teammate distinct
from the passer whose facing-biased metric is minimal among all such
teammates. -/
theorem findNearestTeammate_min (ps : List Player) (f t : Player)
    (h : findNearestTeammate ps f = some t) :
    t ∈ ps ∧ t.id ≠ f.id ∧ t.team = f.team ∧
    ∀ u ∈ ps, u.id ≠ f.id → u.team = f.team → adjustedDist f t ≤ adjustedDist f u := by
  unfold findNearestTeammate at h
  cases hfold : ps.foldl (fntStep f) none with
  | none => rw [hfold] at h; cases h
  | some pm =>
      obtain ⟨q, m⟩ := pm
      rw [hfold] at h
      have hqt : q = t := by
        simpa using h
      subst hqt
      obtain ⟨h1, h2, h3, _⟩ :=
        fntFold_spec f ps none (by intro _ _ h0; cases h0) q m hfold
      rcases h2 with ⟨hq, he⟩ | h2
      · push_neg at he
        refine ⟨hq, he.1, he.2, ?_⟩
        intro u hu hid hteam
        have helig : ¬ (u.id = f.id ∨ u.team ≠ f.team) := by
          push_neg
          exact ⟨hid, hteam⟩
        rw [← h1]
        exact h3 u hu helig
      · cases h2

/-- With a pass-only input, a ball holder and a receiver at a distinct
position, `applyInput` clears possession and releases the ball toward the
receiver at pass power. -/
theorem applyInput_pass_release (ps : List Player) (now : ℝ) (p t : Player) (b : Ball)
    (hball : p.hasBall = true)
    (ht : findNearestTeammate ps p = some t)
    (hpos : 0 < (t.x - p.x) * (t.x - p.x) + (t.y - p.y) * (t.y - p.y)) :
    applyInput ps passInput now p b =
      ({ p with lastUpdate := now, hasBall := false },
       { b with ownerId := none, isGrabbed := false,
                velocityX := (t.x - p.x) /
                  Real.sqrt ((t.x - p.x) * (t.x - p.x) + (t.y - p.y) * (t.y - p.y)) *
                  PASS_POWER,
                velocityY := (t.y - p.y) /
                  Real.sqrt ((t.x - p.x) * (t.x - p.x) + (t.y - p.y) * (t.y - p.y)) *
                  PASS_POWER }) := by
  have ht2 : findNearestTeammate ps { p with lastUpdate := now } = some t := ht
  have hsq : 0 < Real.sqrt ((t.x - p.x) * (t.x - p.x) + (t.y - p.y) * (t.y - p.y)) :=
    Real.sqrt_pos.mpr hpos
  have hM : inputMove passInput { p with lastUpdate := now } = { p with lastUpdate := now } := by
    simp [inputMove, passInput]
  have hSh : ∀ pb : Player × Ball, inputShoot passInput pb = pb := by
    intro pb
    simp [inputShoot, passInput]
  have hSl : ∀ pb : Player × Ball, inputSlide passInput pb = pb := by
    intro pb
    simp [inputSlide, passInput]
  have hGr : ∀ pb : Player × Ball, inputGrab passInput pb = pb := by
    intro pb
    simp [inputGrab, passInput]
  have hcond : passInput.pass = true ∧
      (({ p with lastUpdate := now } : Player), b).1.hasBall = true := ⟨rfl, hball⟩
  have hP : inputPass ps passInput ({ p with lastUpdate := now }, b) =
      ({ p with lastUpdate := now, hasBall := false },
       { b with ownerId := none, isGrabbed := false,
                velocityX := (t.x - p.x) /
                  Real.sqrt ((t.x - p.x) * (t.x - p.x) + (t.y - p.y) * (t.y - p.y)) *
                  PASS_POWER,
                velocityY := (t.y - p.y) /
                  Real.sqrt ((t.x - p.x) * (t.x - p.x) + (t.y - p.y) * (t.y - p.y)) *
                  PASS_POWER }) := by
    simp only [inputPass]
    rw [if_pos hcond, ht2]
    dsimp only
    rw [if_pos hsq]
  simp only [applyInput]
  rw [hM, hSh, hP, hSl, hGr]

/-- With a pass-only input, the pass leaves the player (beyond the
activity refresh) and the ball untouched when the player has no ball or
no teammate is present. -/
theorem applyInput_pass_noRelease (ps : List Player) (now : ℝ) (p : Player) (b : Ball)
    (h : p.hasBall = false ∨ findNearestTeammate ps p = none) :
    applyInput ps passInput now p b = ({ p with lastUpdate := now }, b) := by
  have hM : inputMove passInput { p with lastUpdate := now } = { p with lastUpdate := now } := by
    simp [inputMove, passInput]
  have hSh : ∀ pb : Player × Ball, inputShoot passInput pb = pb := by
    intro pb
    simp [inputShoot, passInput]
  have hSl : ∀ pb : Player × Ball, inputSlide passInput pb = pb := by
    intro pb
    simp [inputSlide, passInput]
  have hGr : ∀ pb : Player × Ball, inputGrab passInput pb = pb := by
    intro pb
    simp [inputGrab, passInput]
  have hP : inputPass ps passInput ({ p with lastUpdate := now }, b) =
      ({ p with lastUpdate := now }, b) := by
    rcases h with h | h
    · have hcond : ¬ (passInput.pass = true ∧
          (({ p with lastUpdate := now } : Player), b).1.hasBall = true) := by
        rintro ⟨_, hh⟩
        have hh2 : p.hasBall = true := hh
        rw [h] at hh2
        cases hh2
      simp only [inputPass]
      rw [if_neg hcond]
    · have hcond : passInput.pass = true ∧
          (({ p with lastUpdate := now } : Player), b).1.hasBall = true ∨
          ¬ (passInput.pass = true ∧
          (({ p with lastUpdate := now } : Player), b).1.hasBall = true) := em _
      have h2 : findNearestTeammate ps { p with lastUpdate := now } = none := h
      rcases hcond with hc | hc
      · simp only [inputPass]
        rw [if_pos hc, h2]
      · simp only [inputPass]
        rw [if_neg hc]
  simp only [applyInput]
  rw [hM, hSh, hP, hSl, hGr]

/-- C7: with a pass-only input, the receiver is the teammate minimizing
the facing-biased metric (distance scaled by 0.6 ahead of the passer,
1.4 otherwise); the passer then loses possession, ownership and grab
clear, and the ball velocity becomes the unit vector toward the receiver
scaled by the pass power 9.  Without the ball, or with no teammate, the
pass input does not release or accelerate the ball. -/
theorem handleInput_passSpec (st : RoomState) (pid : String) (now : ℝ) (p : Player)
    (hp : st.players.find? (fun q => q.id == pid) = some p) :
    (∀ t, findNearestTeammate st.players p = some t →
        t ∈ st.players ∧ t.id ≠ p.id ∧ t.team = p.team ∧
        ∀ u ∈ st.players, u.id ≠ p.id → u.team = p.team →
          adjustedDist p t ≤ adjustedDist p u) ∧
    (∀ t, p.hasBall = true → findNearestTeammate st.players p = some t →
        ¬ (t.x = p.x ∧ t.y = p.y) →
        (handleInput st pid passInput now).room.ball.ownerId = none ∧
        (handleInput st pid passInput now).room.ball.isGrabbed = false ∧
        (handleInput st pid passInput now).room.ball.velocityX =
          (t.x - p.x) /
            Real.sqrt ((t.x - p.x) * (t.x - p.x) + (t.y - p.y) * (t.y - p.y)) *
            PASS_POWER ∧
        (handleInput st pid passInput now).room.ball.velocityY =
          (t.y - p.y) /
            Real.sqrt ((t.x - p.x) * (t.x - p.x) + (t.y - p.y) * (t.y - p.y)) *
            PASS_POWER ∧
        (∀ q ∈ (handleInput st pid passInput now).players, q.id = pid →
          q.hasBall = false)) ∧
    (p.hasBall = false →
        (handleInput st pid passInput now).room.ball = st.room.ball) ∧
    (p.hasBall = true → findNearestTeammate st.players p = none →
        (handleInput st pid passInput now).room.ball = st.room.ball ∧
        ∀ q ∈ (handleInput st pid passInput now).players, q.id = pid →
          q.hasBall = true) := by
  have hmain : handleInput st pid passInput now =
      { room := { st.room with
          ball := (applyInput st.players passInput now p st.room.ball).2 }
        players := st.players.map (fun q =>
          if q.id == pid then (applyInput st.players passInput now p st.room.ball).1
          else q) } := by
    unfold handleInput
    rw [hp]
  refine ⟨?_, ?_, ?_, ?_⟩
  · intro t ht
    exact findNearestTeammate_min st.players p t ht
  · intro t hball ht hne
    have hpos : 0 < (t.x - p.x) * (t.x - p.x) + (t.y - p.y) * (t.y - p.y) := by
      rcases lt_trichotomy (t.x - p.x) 0 with h | h | h
      · nlinarith [mul_self_nonneg (t.y - p.y)]
      · have hx : t.x = p.x := by linarith
        have hy : ¬ t.y = p.y := fun hy => hne ⟨hx, hy⟩
        have hy2 : t.y - p.y ≠ 0 := fun h0 => hy (by linarith)
        have : 0 < (t.y - p.y) * (t.y - p.y) :=
          lt_of_le_of_ne (mul_self_nonneg _) (Ne.symm (mul_self_ne_zero.mpr hy2))
        nlinarith [mul_self_nonneg (t.x - p.x)]
      · nlinarith [mul_self_nonneg (t.y - p.y)]
    have happ := applyInput_pass_release st.players now p t st.room.ball hball ht hpos
    rw [hmain, happ]
    refine ⟨rfl, rfl, rfl, rfl, ?_⟩
    intro q hq hqid
    simp only [List.mem_map] at hq
    obtain ⟨q0, _, hq0⟩ := hq
    by_cases hid : (q0.id == pid) = true
    · rw [if_pos hid] at hq0
      rw [← hq0]
    · rw [if_neg hid] at hq0
      exfalso
      rw [← hq0] at hqid
      exact hid (by simpa using hqid)
  · intro hball
    have happ := applyInput_pass_noRelease st.players now p st.room.ball (Or.inl hball)
    rw [hmain, happ]
  · intro hball ht
    have happ := applyInput_pass_noRelease st.players now p st.room.ball (Or.inr ht)
    rw [hmain, happ]
    refine ⟨rfl, ?_⟩
    intro q hq hqid
    simp only [List.mem_map] at hq
    obtain ⟨q0, _, hq0⟩ := hq
    by_cases hid : (q0.id == pid) = true
    · rw [if_pos hid] at hq0
      rw [← hq0]
      exact hball
    · rw [if_neg hid] at hq0
      exfalso
      rw [← hq0] at hqid
      exact hid (by simpa using hqid)

/-- Witness for C7 at a concrete two-player room: the passer at
(100, 100) holding the ball passes to the teammate at (103, 104); the
ball is released. -/
theorem handleInput_passSpec_witness :
    passState.players.find? (fun q => q.id == "p1") = some passerW ∧
    passerW.hasBall = true ∧
    findNearestTeammate passState.players passerW = some mateW ∧
    ¬ (mateW.x = passerW.x ∧ mateW.y = passerW.y) ∧
    (handleInput passState "p1" passInput 5).room.ball.ownerId = none :=
  ⟨rfl, rfl, rfl, by norm_num [mateW, passerW, wPlayer],
    ((handleInput_passSpec passState "p1" 5 passerW rfl).2.1 mateW rfl rfl
      (by norm_num [mateW, passerW, wPlayer])).1⟩

/-- Witness for C10: rejoining as an existing member of a full home team,
requesting the other team, still succeeds and only refreshes the
timestamp. -/
theorem joinRoom_existingPlayer_witness :
    fullHomeState.players.find? (fun q => q.id == "h3") = some (wPlayer "h3" Team.home) ∧
    joinRoom fullHomeState "h3" "NewName" Team.away 7 0 =
      (some { wPlayer "h3" Team.home with lastUpdate := 7 },
       { fullHomeState with players := refreshPlayers fullHomeState.players "h3" 7 }) :=
  ⟨rfl,
    (joinRoom_existingPlayer fullHomeState "h3" "NewName" Team.away 7 0
      (wPlayer "h3" Team.home) rfl).1⟩

/-- Membership transfer along a pointwise list correspondence, right to
left. -/
theorem forall2_mem_right {α β : Type} {R : α → β → Prop} {l₁ : List α} {l₂ : List β}
    (h : List.Forall₂ R l₁ l₂) : ∀ y ∈ l₂, ∃ x ∈ l₁, R x y := by
  induction h with
  | nil => intro y hy; cases hy
  | cons hr _ ih =>
      intro y hy
      rcases List.mem_cons.1 hy with rfl | hy
      · exact ⟨_, List.mem_cons_self _ _, hr⟩
      · obtain ⟨x, hx, hxy⟩ := ih y hy
        exact ⟨x, List.mem_cons_of_mem _ hx, hxy⟩

/-- Membership transfer along a pointwise list correspondence, left to
right. -/
theorem forall2_mem_left {α β : Type} {R : α → β → Prop} {l₁ : List α} {l₂ : List β}
    (h : List.Forall₂ R l₁ l₂) : ∀ x ∈ l₁, ∃ y ∈ l₂, R x y := by
  induction h with
  | nil => intro x hx; cases hx
  | cons hr _ ih =>
      intro x hx
      rcases List.mem_cons.1 hx with rfl | hx
      · exact ⟨_, List.mem_cons_self _ _, hr⟩
      · obtain ⟨y, hy, hxy⟩ := ih x hx
        exact ⟨y, List.mem_cons_of_mem _ hy, hxy⟩

/-- A role-preserving correspondence keeps the stored id sequence. -/
theorem roles_ids {ps qs : List Player} (h : Roles ps qs) :
    qs.map (fun p => p.id) = ps.map (fun p => p.id) := by
  induction h with
  | nil => rfl
  | cons hr _ ih => simp only [List.map_cons, ih, hr.1]

/-- A list with the same id sequence inherits the id invariant. -/
theorem idsOK_of_map_eq {ps qs : List Player}
    (hmap : qs.map (fun p => p.id) = ps.map (fun p => p.id)) (h : idsOK ps) : idsOK qs := by
  constructor
  · intro q hq
    have hmem : q.id ∈ qs.map (fun p => p.id) := List.mem_map_of_mem _ hq
    rw [hmap] at hmem
    obtain ⟨p, hp, hpe⟩ := List.mem_map.1 hmem
    rw [← hpe]
    exact h.1 p hp
  · rw [hmap]
    exact h.2

/-- The possession invariant transfers along a role-preserving player
correspondence when the ball keeps its owner and grab flag. -/
theorem ballInv_transfer {ps qs : List Player} {b bn : Ball} (hr : Roles ps qs)
    (ho : bn.ownerId = b.ownerId) (hg : bn.isGrabbed = b.isGrabbed)
    (h : ballInv ps b) : ballInv qs bn := by
  obtain ⟨h1, h2, h3, h4⟩ := h
  refine ⟨?_, ?_, ?_, ?_⟩
  · intro hn q hq
    rw [ho] at hn
    obtain ⟨p, hp, hpq⟩ := forall2_mem_right hr q hq
    rw [hpq.2.2.2]
    exact h1 hn p hp
  · intro s hs
    rw [ho] at hs
    obtain ⟨hne, p, hp, hpb, hpi⟩ := h2 s hs
    obtain ⟨q, hq, hpq⟩ := forall2_mem_left hr p hp
    exact ⟨hne, q, hq, by rw [hpq.2.2.2]; exact hpb, by rw [hpq.1]; exact hpi⟩
  · intro q1 hq1 hb1 q2 hq2 hb2
    obtain ⟨p1, hp1, hr1⟩ := forall2_mem_right hr q1 hq1
    obtain ⟨p2, hp2, hr2⟩ := forall2_mem_right hr q2 hq2
    rw [hr1.1, hr2.1]
    exact h3 p1 hp1 (by rw [← hr1.2.2.2]; exact hb1) p2 hp2 (by rw [← hr2.2.2.2]; exact hb2)
  · intro hgr
    rw [hg] at hgr
    obtain ⟨p, hp, hpb, hpk, hpo⟩ := h4 hgr
    obtain ⟨q, hq, hpq⟩ := forall2_mem_left hr p hp
    exact ⟨q, hq, by rw [hpq.2.2.2]; exact hpb, by rw [hpq.2.2.1]; exact hpk,
      by rw [ho, hpo, hpq.1]⟩

/-- A pointwise role-preserving map induces a role correspondence. -/
theorem roles_map {l : List Player} {f : Player → Player}
    (h : ∀ q ∈ l, SameRole q (f q)) : Roles l (l.map f) := by
  induction l with
  | nil => exact List.Forall₂.nil
  | cons p rest ih =>
      exact List.Forall₂.cons (h p (List.mem_cons_self p rest))
        (ih fun q hq => h q (List.mem_cons_of_mem p hq))

/-- Under the possession invariant, every holder is the stored owner. -/
theorem ballInv_holder {ps : List Player} {b : Ball} (h : ballInv ps b) :
    ∀ p ∈ ps, p.hasBall = true → b.ownerId = some p.id := by
  intro p hp hb
  cases ho : b.ownerId with
  | none => exact absurd hb (by simp [h.1 ho p hp])
  | some s =>
      obtain ⟨hne, q, hq, hqb, hqi⟩ := h.2.1 s ho
      have hps : p.id = s := (h.2.2.1 p hp hb q hq hqb).trans hqi
      rw [hps]

/-- Under the possession invariant, a falsy owner field is null. -/
theorem ballInv_falsy {ps : List Player} {b : Ball} (h : ballInv ps b)
    (hf : jsTruthy b.ownerId = false) : b.ownerId = none := by
  cases ho : b.ownerId with
  | none => rfl
  | some s =>
      obtain ⟨hne, _⟩ := h.2.1 s ho
      rw [ho] at hf
      simp [jsTruthy] at hf
      exact absurd hf hne

/-- Under the possession invariant, an unowned ball is not grabbed. -/
theorem ballInv_none_ungrabbed {ps : List Player} {b : Ball} (h : ballInv ps b)
    (ho : b.ownerId = none) : b.isGrabbed = false := by
  cases hgb : b.isGrabbed with
  | false => rfl
  | true =>
      obtain ⟨p, hp, hpb, hpk, hpo⟩ := h.2.2.2 hgb
      rw [ho] at hpo
      cases hpo

/-- Per-player frame block: the updated player keeps its role fields,
and the ball keeps its grab flag and either keeps its owner or is glued
to a holding player. -/
theorem playerStep_spec (b : Ball) (p : Player) :
    SameRole p (playerStep b p).1 ∧
    (playerStep b p).2.isGrabbed = b.isGrabbed ∧
    ((playerStep b p).2.ownerId = b.ownerId ∨
      (p.hasBall = true ∧ (playerStep b p).2.ownerId = some p.id)) := by
  simp only [playerStep, SameRole]
  split_ifs <;> simp_all

/-- The player update loop keeps every role field, and under the
holder-owner discipline leaves the owner and grab fields of the ball
unchanged. -/
theorem playersUpdate_spec (ps : List Player) (b : Ball)
    (h : ∀ p ∈ ps, p.hasBall = true → b.ownerId = some p.id) :
    Roles ps (playersUpdate ps b).1 ∧
    (playersUpdate ps b).2.ownerId = b.ownerId ∧
    (playersUpdate ps b).2.isGrabbed = b.isGrabbed := by
  induction ps generalizing b with
  | nil => exact ⟨List.Forall₂.nil, rfl, rfl⟩
  | cons p rest ih =>
      obtain ⟨hrole, hgr, how⟩ := playerStep_spec b p
      have hone : (playerStep b p).2.ownerId = b.ownerId := by
        rcases how with how | ⟨hpb, how⟩
        · exact how
        · rw [how, h p (List.mem_cons_self p rest) hpb]
      have hrest : ∀ q ∈ rest, q.hasBall = true → (playerStep b p).2.ownerId = some q.id := by
        intro q hq hqb
        rw [hone]
        exact h q (List.mem_cons_of_mem p hq) hqb
      obtain ⟨hR, hO, hG⟩ := ih (playerStep b p).2 hrest
      simp only [playersUpdate]
      exact ⟨List.Forall₂.cons hrole hR, hO.trans hone, hG.trans hgr⟩

/-- Free-ball physics never touches the owner or grab fields. -/
theorem ballStep_poss (b : Ball) :
    (ballStep b).1.ownerId = b.ownerId ∧ (ballStep b).1.isGrabbed = b.isGrabbed := by
  simp only [ballStep]
  split_ifs <;> exact ⟨rfl, rfl⟩

/-- The pickup scan never changes the stored id sequence. -/
theorem pickupFold_ids : ∀ (ps : List Player) (b : Ball),
    ((pickupFold ps b).1).map (fun p => p.id) = ps.map (fun p => p.id) := by
  intro ps
  induction ps with
  | nil => intro b; rfl
  | cons p rest ih =>
      intro b
      simp only [pickupFold]
      split_ifs with hc
      · simp [ih]
      · simp [ih]

/-- On an owned (truthy) ball the pickup scan is the identity: every
candidate fails the ownership test. -/
theorem pickupFold_owned : ∀ (ps : List Player) (b : Ball),
    jsTruthy b.ownerId = true → pickupFold ps b = (ps, b) := by
  intro ps
  induction ps with
  | nil => intro b _; rfl
  | cons p rest ih =>
      intro b h
      simp only [pickupFold]
      rw [if_neg fun hc => hc.1 (Or.inr h), ih b h]

/-- Pickup resolution on a ball with no holder anywhere: either nothing
is in range and the scan is the identity, or possession is granted to
exactly one player, who becomes the stored owner with the grab flag
clear. -/
theorem pickupFold_free : ∀ (ps : List Player) (b : Ball),
    (∀ p ∈ ps, p.id ≠ "") → (∀ p ∈ ps, p.hasBall = false) →
    pickupFold ps b = (ps, b) ∨
    ∃ p ∈ ps, (pickupFold ps b).2.ownerId = some p.id ∧
      (pickupFold ps b).2.isGrabbed = false ∧
      (∀ r ∈ (pickupFold ps b).1, r.hasBall = true → r.id = p.id) ∧
      ∃ r ∈ (pickupFold ps b).1, r.hasBall = true ∧ r.id = p.id := by
  intro ps
  induction ps with
  | nil => intro b _ _; exact Or.inl rfl
  | cons p rest ih =>
      intro b hids hnb
      by_cases hc : ¬ (p.hasBall = true ∨ jsTruthy b.ownerId = true) ∧
          Real.sqrt ((p.x - b.x) * (p.x - b.x) + (p.y - b.y) * (p.y - b.y)) <
            PLAYER_SIZE / 2 + BALL_SIZE / 2 + 4
      · have hid : p.id ≠ "" := hids p (List.mem_cons_self p rest)
        have hrest := pickupFold_owned rest
          { b with ownerId := some p.id, isGrabbed := false } (by simp [jsTruthy, hid])
        refine Or.inr ⟨p, List.mem_cons_self p rest, ?_, ?_, ?_, ?_⟩
        · simp only [pickupFold, if_pos hc, hrest]
        · simp only [pickupFold, if_pos hc, hrest]
        · simp only [pickupFold, if_pos hc, hrest]
          intro r hr hrb
          rcases List.mem_cons.1 hr with rfl | hr
          · rfl
          · exact absurd hrb (by simp [hnb r (List.mem_cons_of_mem p hr)])
        · simp only [pickupFold, if_pos hc, hrest]
          exact ⟨{ p with hasBall := true }, List.mem_cons_self _ _, rfl, rfl⟩
      · have ih2 := ih b (fun q hq => hids q (List.mem_cons_of_mem p hq))
          (fun q hq => hnb q (List.mem_cons_of_mem p hq))
        simp only [pickupFold, if_neg hc]
        rcases ih2 with heq | ⟨p2, hp2, ho2, hg2, hall2, r2, hr2, hrb2, hri2⟩
        · rw [heq]
          exact Or.inl rfl
        · refine Or.inr ⟨p2, List.mem_cons_of_mem p hp2, ho2, hg2, ?_,
            r2, List.mem_cons_of_mem _ hr2, hrb2, hri2⟩
          intro r hr hrb
          rcases List.mem_cons.1 hr with rfl | hr
          · exact absurd hrb (by simp [hnb r (List.mem_cons_self _ _)])
          · exact hall2 r hr hrb

/-- The inner tackle scan is the identity when no candidate qualifies. -/
theorem tackleInner_noHit (sl : Player) : ∀ (ts : List Player) (b : Ball) (rs : RS),
    (∀ t ∈ ts, ¬ tackleHits sl t) → tackleInner sl ts b rs = (ts, b, rs) := by
  intro ts
  induction ts with
  | nil => intro b rs _; rfl
  | cons t rest ih =>
      intro b rs h
      simp only [tackleInner, if_neg (h t (List.mem_cons_self t rest))]
      rw [ih b rs (fun q hq => h q (List.mem_cons_of_mem t hq))]

/-- The inner tackle scan on a list whose only possible target is the
marked holder: a qualifying hit clears that holder and releases the ball
with the two-value random impulse. -/
theorem tackleInner_split (sl t0 : Player) : ∀ (ts1 ts2 : List Player) (b : Ball) (rs : RS),
    (∀ t ∈ ts1, t.hasBall = false) → (∀ t ∈ ts2, t.hasBall = false) →
    tackleHits sl t0 →
    tackleInner sl (ts1 ++ t0 :: ts2) b rs =
      (ts1 ++ { t0 with hasBall := false } :: ts2,
       { b with ownerId := none, isGrabbed := false,
                velocityX := (rs 0 - 0.5) * 6, velocityY := (rsTail rs 0 - 0.5) * 6 },
       rsTail (rsTail rs)) := by
  intro ts1
  induction ts1 with
  | nil =>
      intro ts2 b rs _ h2 hhit
      simp only [List.nil_append, tackleInner, if_pos hhit]
      rw [tackleInner_noHit sl ts2 _ _ (fun t ht hc => by
        have hb := hc.2.2.1
        rw [h2 t ht] at hb
        exact Bool.noConfusion hb)]
  | cons t ts1x ih =>
      intro ts2 b rs h1 h2 hhit
      have hnt : ¬ tackleHits sl t := fun hc => by
        have hb := hc.2.2.1
        rw [h1 t (List.mem_cons_self t ts1x)] at hb
        exact Bool.noConfusion hb
      simp only [List.cons_append, tackleInner, if_neg hnt, List.append_eq]
      rw [ih ts2 b rs (fun q hq => h1 q (List.mem_cons_of_mem t hq)) h2 hhit]

/-- One inner tackle scan preserves the id and possession invariants. -/
theorem tackleInner_pres (sl : Player) (ts : List Player) (b : Ball) (rs : RS)
    (hids : idsOK ts) (hinv : ballInv ts b) :
    idsOK (tackleInner sl ts b rs).1 ∧
    ballInv (tackleInner sl ts b rs).1 (tackleInner sl ts b rs).2.1 := by
  cases ho : b.ownerId with
  | none =>
      have hnb := hinv.1 ho
      rw [tackleInner_noHit sl ts b rs (fun t ht hc => by
        have hb := hc.2.2.1
        rw [hnb t ht] at hb
        exact Bool.noConfusion hb)]
      exact ⟨hids, hinv⟩
  | some s =>
      obtain ⟨hne, t0, ht0, ht0b, ht0i⟩ := hinv.2.1 s ho
      obtain ⟨ts1, ts2, rfl⟩ := List.append_of_mem ht0
      have hnd := hids.2
      rw [List.map_append, List.map_cons] at hnd
      have hdisj := (List.nodup_append.1 hnd).2.2
      have hnd2 := (List.nodup_append.1 hnd).2.1
      have h1 : ∀ t ∈ ts1, t.hasBall = false := by
        intro t ht
        rcases Bool.eq_false_or_eq_true t.hasBall with htb | htb
        · exfalso
          have hid := hinv.2.2.1 t (List.mem_append_left _ ht) htb t0
            (List.mem_append_right _ (List.mem_cons_self _ _)) ht0b
          have hm1 : t.id ∈ ts1.map (fun p => p.id) := List.mem_map_of_mem _ ht
          have hm2 : t.id ∈ t0.id :: ts2.map (fun p => p.id) := by
            rw [hid]
            exact List.mem_cons_self _ _
          exact hdisj hm1 hm2
        · exact htb
      have h2 : ∀ t ∈ ts2, t.hasBall = false := by
        intro t ht
        rcases Bool.eq_false_or_eq_true t.hasBall with htb | htb
        · exfalso
          have hid := hinv.2.2.1 t (List.mem_append_right _ (List.mem_cons_of_mem _ ht))
            htb t0 (List.mem_append_right _ (List.mem_cons_self _ _)) ht0b
          have hm : t0.id ∈ ts2.map (fun p => p.id) := by
            rw [← hid]
            exact List.mem_map_of_mem _ ht
          exact (List.nodup_cons.1 hnd2).1 hm
        · exact htb
      by_cases hhit : tackleHits sl t0
      · rw [tackleInner_split sl t0 ts1 ts2 b rs h1 h2 hhit]
        have hall : ∀ r ∈ ts1 ++ { t0 with hasBall := false } :: ts2, r.hasBall = false := by
          intro r hr
          rcases List.mem_append.1 hr with hr | hr
          · exact h1 r hr
          · rcases List.mem_cons.1 hr with rfl | hr
            · rfl
            · exact h2 r hr
        constructor
        · refine idsOK_of_map_eq ?_ hids
          simp only [List.map_append, List.map_cons]
        · refine ⟨fun _ => hall, ?_, ?_, ?_⟩
          · intro s2 hs2
            exact Option.noConfusion hs2
          · intro r1 hr1 hb1 r2 hr2 hb2
            rw [hall r1 hr1] at hb1
            exact Bool.noConfusion hb1
          · intro hg
            exact Bool.noConfusion hg
      · have hnone : ∀ t ∈ ts1 ++ t0 :: ts2, ¬ tackleHits sl t := by
          intro t ht hc
          rcases List.mem_append.1 ht with ht | ht
          · have hb := hc.2.2.1
            rw [h1 t ht] at hb
            exact Bool.noConfusion hb
          · rcases List.mem_cons.1 ht with rfl | ht
            · exact hhit hc
            · have hb := hc.2.2.1
              rw [h2 t ht] at hb
              exact Bool.noConfusion hb
        rw [tackleInner_noHit sl _ b rs hnone]
        exact ⟨hids, hinv⟩

/-- The outer tackle scan preserves the id and possession invariants. -/
theorem tackleOuter_pres : ∀ (sls : List Player) (acc : List Player × Ball × RS),
    idsOK acc.1 → ballInv acc.1 acc.2.1 →
    idsOK (tackleOuter sls acc).1 ∧
    ballInv (tackleOuter sls acc).1 (tackleOuter sls acc).2.1 := by
  intro sls
  induction sls with
  | nil => intro acc h1 h2; exact ⟨h1, h2⟩
  | cons sl rest ih =>
      intro acc h1 h2
      simp only [tackleOuter]
      split_ifs with hs
      · obtain ⟨h1x, h2x⟩ := tackleInner_pres sl acc.1 acc.2.1 acc.2.2 h1 h2
        exact ih _ h1x h2x
      · exact ih acc h1 h2

/-- Every list corresponds to itself. -/
theorem roles_refl : ∀ (l : List Player), Roles l l := by
  intro l
  induction l with
  | nil => exact List.Forall₂.nil
  | cons p rest ih => exact List.Forall₂.cons ⟨rfl, rfl, rfl, rfl⟩ ih

/-- The player-update loop followed by free-ball physics preserves the
id and possession invariants. -/
theorem stepA_pres (ps : List Player) (b : Ball) (hids : idsOK ps) (hinv : ballInv ps b) :
    idsOK (playersUpdate ps b).1 ∧
    ballInv (playersUpdate ps b).1 (ballStep (playersUpdate ps b).2).1 := by
  obtain ⟨hR, hO, hG⟩ := playersUpdate_spec ps b (ballInv_holder hinv)
  obtain ⟨hbo, hbg⟩ := ballStep_poss (playersUpdate ps b).2
  exact ⟨idsOK_of_map_eq (roles_ids hR) hids,
    ballInv_transfer (roles_refl _) hbo hbg (ballInv_transfer hR hO hG hinv)⟩

/-- Pickup resolution followed by slide tackles preserves the id and
possession invariants. -/
theorem stepB_pres (ps : List Player) (b : Ball) (rs : RS)
    (hids : idsOK ps) (hinv : ballInv ps b) :
    idsOK (tackleStage (pickupFold ps b).1 (pickupFold ps b).2 rs).1 ∧
    ballInv (tackleStage (pickupFold ps b).1 (pickupFold ps b).2 rs).1
      (tackleStage (pickupFold ps b).1 (pickupFold ps b).2 rs).2.1 := by
  have hpk : idsOK (pickupFold ps b).1 ∧ ballInv (pickupFold ps b).1 (pickupFold ps b).2 := by
    cases htr : jsTruthy b.ownerId with
    | true =>
        rw [pickupFold_owned ps b htr]
        exact ⟨hids, hinv⟩
    | false =>
        have hon := ballInv_falsy hinv htr
        have hnb := hinv.1 hon
        have hidsok := idsOK_of_map_eq (pickupFold_ids ps b) hids
        rcases pickupFold_free ps b hids.1 hnb with heq | ⟨p, hp, ho, hg, hall, r, hr, hrb, hri⟩
        · rw [heq]
          exact ⟨hids, hinv⟩
        · refine ⟨hidsok, ?_, ?_, ?_, ?_⟩
          · intro hnone
            rw [ho] at hnone
            exact Option.noConfusion hnone
          · intro s hs
            rw [ho] at hs
            have hsp : s = p.id := (Option.some.inj hs).symm
            refine ⟨?_, r, hr, hrb, by rw [hri, hsp]⟩
            rw [hsp]
            exact hids.1 p hp
          · intro r1 hr1 hb1 r2 hr2 hb2
            rw [hall r1 hr1 hb1, hall r2 hr2 hb2]
          · intro hgr
            rw [hg] at hgr
            exact Bool.noConfusion hgr
  simp only [tackleStage]
  exact tackleOuter_pres (pickupFold ps b).1 ((pickupFold ps b).1, (pickupFold ps b).2, rs)
    hpk.1 hpk.2

/-- One frame of the updateGame loop preserves the room invariant. -/
theorem frame_pres (now : ℝ) (acc : RoomState × Bool × RS) (h : Inv acc.1) :
    Inv (frame now acc).1 := by
  obtain ⟨st, nr, rs⟩ := acc
  obtain ⟨hids, hinv⟩ := h
  simp only [frame]
  split
  · exact ⟨hids, hinv⟩
  · have hball : (if 0 < st.room.gameTime then
          { st.room with gameTime := max 0 (180 - ⌊(now - st.room.createdAt) / 1000⌋) }
        else st.room).ball = st.room.ball := by
      split <;> rfl
    rw [hball]
    have hA := stepA_pres st.players st.room.ball hids hinv
    split
    · exact ⟨hA.1, hA.2⟩
    · exact ⟨hA.1, hA.2⟩
    · exact stepB_pres (playersUpdate st.players st.room.ball).1
        (ballStep (playersUpdate st.players st.room.ball).2).1 rs hA.1 hA.2

/-- The frame loop preserves the room invariant. -/
theorem runFrames_pres (now : ℝ) : ∀ (n : ℕ) (acc : RoomState × Bool × RS),
    Inv acc.1 → Inv (runFrames now n acc).1 := by
  intro n
  induction n with
  | zero => intro acc h; exact h
  | succ k ih => intro acc h; exact ih (frame now acc) (frame_pres now acc h)

/-- The reset loop keeps the stored id sequence. -/
theorem resetFold_ids : ∀ (ps : List Player) (hi ai : ℕ),
    (resetFold ps hi ai).map (fun p => p.id) = ps.map (fun p => p.id) := by
  intro ps
  induction ps with
  | nil => intro hi ai; rfl
  | cons p rest ih =>
      intro hi ai
      simp only [resetFold, List.map_cons]
      rw [ih]

/-- The reset loop strips possession from every player. -/
theorem resetFold_noBall : ∀ (ps : List Player) (hi ai : ℕ),
    ∀ r ∈ resetFold ps hi ai, r.hasBall = false := by
  intro ps
  induction ps with
  | nil => intro hi ai r hr; cases hr
  | cons p rest ih =>
      intro hi ai r hr
      simp only [resetFold] at hr
      rcases List.mem_cons.1 hr with rfl | hr
      · rfl
      · exact ih _ _ r hr

/-- The kickoff reset yields an invariant-satisfying room. -/
theorem resetPositions_pres (st : RoomState) (h : idsOK st.players) :
    Inv (resetPositions st) := by
  refine ⟨idsOK_of_map_eq (resetFold_ids st.players 0 0) h, ?_, ?_, ?_, ?_⟩
  · intro _ r hr
    exact resetFold_noBall st.players 0 0 r hr
  · intro s hs
    exact Option.noConfusion hs
  · intro r1 hr1 hb1 r2 hr2 hb2
    rw [resetFold_noBall st.players 0 0 r1 hr1] at hb1
    exact Bool.noConfusion hb1
  · intro hg
    exact Bool.noConfusion hg

/-- The room advance operation preserves the room invariant. -/
theorem updateGame_pres (now : ℝ) (st : RoomState) (rs : RS) (h : Inv st) :
    Inv (updateGame now st rs) := by
  have hrun := runFrames_pres now (elapsedFrames (now - st.room.lastTick)).toNat
    ({ st with room := { st.room with lastTick := now } }, false, rs) ⟨h.1, h.2⟩
  simp only [updateGame]
  split_ifs with h1 h2 h3
  · exact h
  · exact h
  · exact resetPositions_pres _ hrun.1
  · exact hrun

/-- A fresh room satisfies the invariant. -/
theorem initState_inv (roomId roomName : String) (now : ℝ) :
    Inv (initState roomId roomName now) := by
  refine ⟨⟨?_, ?_⟩, ?_, ?_, ?_, ?_⟩
  · intro p hp
    cases hp
  · exact List.nodup_nil
  · intro hnone p hp
    cases hp
  · intro s hs
    exact Option.noConfusion hs
  · intro p hp
    cases hp
  · intro hg
    exact Bool.noConfusion hg

/-- Joining a room with a nonempty player id preserves the room
invariant. -/
theorem joinRoom_pres (st : RoomState) (pid pname : String) (team : Team)
    (now rand : ℝ) (hpid : pid ≠ "") (h : Inv st) :
    Inv (joinRoom st pid pname team now rand).2 := by
  cases hfind : st.players.find? (fun q => q.id == pid) with
  | some existing =>
      simp only [joinRoom, hfind]
      have hr : Roles st.players (refreshPlayers st.players pid now) := by
        simp only [refreshPlayers]
        refine roles_map ?_
        intro q hq
        split_ifs <;> exact ⟨rfl, rfl, rfl, rfl⟩
      exact ⟨idsOK_of_map_eq (roles_ids hr) h.1, ballInv_transfer hr rfl rfl h.2⟩
  | none =>
      simp only [joinRoom, hfind]
      split_ifs with hfull
      · exact h
      · have hnew : ∀ q ∈ st.players, ¬ (q.id == pid) = true := List.find?_eq_none.1 hfind
        have hfid : (freshPlayer st pid pname team now rand).id = pid := rfl
        refine ⟨⟨?_, ?_⟩, ?_, ?_, ?_, ?_⟩
        · intro q hq
          rcases List.mem_append.1 hq with hq | hq
          · exact h.1.1 q hq
          · rcases List.mem_cons.1 hq with rfl | hq
            · exact hpid
            · cases hq
        · rw [List.map_append]
          refine List.nodup_append.2 ⟨h.1.2, ?_, ?_⟩
          · exact List.nodup_singleton _
          · intro a ha hb
            obtain ⟨q, hq, hqa⟩ := List.mem_map.1 ha
            have hb2 : a = pid := by
              rw [← hfid]
              simpa using hb
            have hqp : q.id = pid := by rw [hqa, hb2]
            exact hnew q hq (by simp [hqp])
        · intro hnone q hq
          rcases List.mem_append.1 hq with hq | hq
          · exact h.2.1 hnone q hq
          · rcases List.mem_cons.1 hq with rfl | hq
            · rfl
            · cases hq
        · intro s hs
          obtain ⟨hne, q, hq, hqb, hqi⟩ := h.2.2.1 s hs
          exact ⟨hne, q, List.mem_append_left _ hq, hqb, hqi⟩
        · have hmem : ∀ r, r ∈ st.players ++ [freshPlayer st pid pname team now rand] →
              r.hasBall = true → r ∈ st.players := by
            intro r hr hb
            rcases List.mem_append.1 hr with hr | hr
            · exact hr
            · rcases List.mem_cons.1 hr with rfl | hr
              · exact absurd hb (fun hb => Bool.noConfusion hb)
              · cases hr
          intro r1 hr1 hb1 r2 hr2 hb2
          exact h.2.2.2.1 r1 (hmem r1 hr1 hb1) hb1 r2 (hmem r2 hr2 hb2) hb2
        · intro hg
          obtain ⟨p, hp, h1, h2, h3⟩ := h.2.2.2.2 hg
          exact ⟨p, List.mem_append_left _ hp, h1, h2, h3⟩

/-- Leaving a room preserves the room invariant. -/
theorem leaveRoom_pres (st : RoomState) (pid : String) (h : Inv st) :
    Inv (leaveRoom st pid) := by
  obtain ⟨hids, hinv⟩ := h
  have hidsF : idsOK (st.players.filter (fun q => !(q.id == pid))) := by
    constructor
    · intro q hq
      exact hids.1 q (List.mem_of_mem_filter hq)
    · exact List.Nodup.sublist (List.Sublist.map _ (List.filter_sublist _)) hids.2
  simp only [leaveRoom]
  cases hfind : st.players.find? (fun q => q.id == pid) with
  | none =>
      simp only [hfind]
      have hfeq : st.players.filter (fun q => !(q.id == pid)) = st.players := by
        rw [List.filter_eq_self]
        intro a ha
        have hna := List.find?_eq_none.1 hfind a ha
        simpa using hna
      rw [hfeq]
      exact ⟨hids, hinv⟩
  | some p =>
      simp only [hfind]
      have hpmem := List.mem_of_find?_eq_some hfind
      have hpid : p.id = pid := by
        have hs := List.find?_some hfind
        simpa using hs
      split_ifs with hpb
      · have hnoneH : ∀ q ∈ st.players.filter (fun r => !(r.id == pid)),
            q.hasBall = false := by
          intro q hq
          rcases Bool.eq_false_or_eq_true q.hasBall with hqb | hqb
          · exfalso
            have hq1 := List.mem_filter.1 hq
            have hqq : q.id = p.id := hinv.2.2.1 q hq1.1 hqb p hpmem hpb
            have hbe : (q.id == pid) = true := by simp [hqq, hpid]
            have hq2 := hq1.2
            rw [hbe] at hq2
            exact Bool.noConfusion hq2
          · exact hqb
        refine ⟨hidsF, ?_, ?_, ?_, ?_⟩
        · intro _ q hq
          exact hnoneH q hq
        · intro s hs
          exact Option.noConfusion hs
        · intro r1 hr1 hb1 r2 hr2 hb2
          rw [hnoneH r1 hr1] at hb1
          exact Bool.noConfusion hb1
        · intro hg
          exact Bool.noConfusion hg
      · refine ⟨hidsF, ?_, ?_, ?_, ?_⟩
        · intro hnone q hq
          exact hinv.1 hnone q (List.mem_of_mem_filter hq)
        · intro s hs
          obtain ⟨hne, q, hq, hqb, hqi⟩ := hinv.2.1 s hs
          refine ⟨hne, q, ?_, hqb, hqi⟩
          rw [List.mem_filter]
          refine ⟨hq, ?_⟩
          have hqp : q.id ≠ pid := by
            intro hqp
            have hqep : q = p := List.inj_on_of_nodup_map hids.2 hq hpmem (by rw [hqp, hpid])
            rw [hqep] at hqb
            exact hpb hqb
          simp [hqp]
        · intro r1 hr1 hb1 r2 hr2 hb2
          exact hinv.2.2.1 r1 (List.mem_of_mem_filter hr1) hb1 r2
            (List.mem_of_mem_filter hr2) hb2
        · intro hg
          obtain ⟨q, hq, hqb, hqk, hqo⟩ := hinv.2.2.2 hg
          refine ⟨q, ?_, hqb, hqk, hqo⟩
          rw [List.mem_filter]
          refine ⟨hq, ?_⟩
          have hqp : q.id ≠ pid := by
            intro hqp
            have hqep : q = p := List.inj_on_of_nodup_map hids.2 hq hpmem (by rw [hqp, hpid])
            rw [hqep] at hqb
            exact hpb hqb
          simp [hqp]

/-- The movement stage of an input never touches id, team, role or
possession. -/
theorem inputMove_proj (input : GameInput) (pA : Player) :
    (inputMove input pA).id = pA.id ∧ (inputMove input pA).team = pA.team ∧
    (inputMove input pA).isGoalkeeper = pA.isGoalkeeper ∧
    (inputMove input pA).hasBall = pA.hasBall := by
  simp only [inputMove]
  split_ifs <;> exact ⟨rfl, rfl, rfl, rfl⟩

/-- The shoot stage keeps the identity fields and either leaves the pair
unchanged or releases a held ball. -/
theorem inputShoot_rel (input : GameInput) (pb : Player × Ball) :
    (inputShoot input pb).1.id = pb.1.id ∧ (inputShoot input pb).1.team = pb.1.team ∧
    (inputShoot input pb).1.isGoalkeeper = pb.1.isGoalkeeper ∧
    (inputShoot input pb = pb ∨
      (pb.1.hasBall = true ∧ (inputShoot input pb).1.hasBall = false ∧
       (inputShoot input pb).2.ownerId = none ∧ (inputShoot input pb).2.isGrabbed = false)) := by
  simp only [inputShoot]
  split_ifs with hc
  · exact ⟨rfl, rfl, rfl, Or.inr ⟨hc.2, rfl, rfl, rfl⟩⟩
  · exact ⟨rfl, rfl, rfl, Or.inl rfl⟩

/-- The pass stage keeps the identity fields and either leaves the pair
unchanged or releases a held ball. -/
theorem inputPass_rel (ps : List Player) (input : GameInput) (pb : Player × Ball) :
    (inputPass ps input pb).1.id = pb.1.id ∧ (inputPass ps input pb).1.team = pb.1.team ∧
    (inputPass ps input pb).1.isGoalkeeper = pb.1.isGoalkeeper ∧
    (inputPass ps input pb = pb ∨
      (pb.1.hasBall = true ∧ (inputPass ps input pb).1.hasBall = false ∧
       (inputPass ps input pb).2.ownerId = none ∧ (inputPass ps input pb).2.isGrabbed = false)) := by
  simp only [inputPass]
  split
  · rename_i hc
    split
    · rename_i t ht
      split
      · exact ⟨rfl, rfl, rfl, Or.inr ⟨hc.2, rfl, rfl, rfl⟩⟩
      · exact ⟨rfl, rfl, rfl, Or.inr ⟨hc.2, rfl, rfl, rfl⟩⟩
    · exact ⟨rfl, rfl, rfl, Or.inl rfl⟩
  · exact ⟨rfl, rfl, rfl, Or.inl rfl⟩

/-- The slide stage touches neither the identity and possession fields
nor the ball. -/
theorem inputSlide_proj (input : GameInput) (pb : Player × Ball) :
    (inputSlide input pb).1.id = pb.1.id ∧ (inputSlide input pb).1.team = pb.1.team ∧
    (inputSlide input pb).1.isGoalkeeper = pb.1.isGoalkeeper ∧
    (inputSlide input pb).1.hasBall = pb.1.hasBall ∧ (inputSlide input pb).2 = pb.2 := by
  simp only [inputSlide]
  split_ifs with hc
  · exact ⟨rfl, rfl, rfl, rfl, rfl⟩
  · exact ⟨rfl, rfl, rfl, rfl, rfl⟩

/-- The goalkeeper grab stage keeps the identity fields and either
leaves the pair unchanged or grabs a ball whose owner field is falsy. -/
theorem inputGrab_rel (input : GameInput) (pb : Player × Ball) :
    (inputGrab input pb).1.id = pb.1.id ∧ (inputGrab input pb).1.team = pb.1.team ∧
    (inputGrab input pb).1.isGoalkeeper = pb.1.isGoalkeeper ∧
    (inputGrab input pb = pb ∨
      (jsTruthy pb.2.ownerId = false ∧ pb.1.isGoalkeeper = true ∧
       (inputGrab input pb).1.hasBall = true ∧
       (inputGrab input pb).2.ownerId = some pb.1.id ∧
       (inputGrab input pb).2.isGrabbed = true)) := by
  simp only [inputGrab]
  split_ifs with hc hd
  · exact ⟨rfl, rfl, rfl, Or.inr ⟨by simpa using hc.2.2, hc.2.1, rfl, rfl, rfl⟩⟩
  · exact ⟨rfl, rfl, rfl, Or.inl rfl⟩
  · exact ⟨rfl, rfl, rfl, Or.inl rfl⟩

/-- A stage that either fixes the pair or releases a held ball maps the
pre-grab possession relation to itself. -/
theorem posRel2_release (p0 : Player) (b0 : Ball) (pb pbx : Player × Ball)
    (hrel : pbx.1.id = pb.1.id ∧ pbx.1.team = pb.1.team ∧
      pbx.1.isGoalkeeper = pb.1.isGoalkeeper ∧
      (pbx = pb ∨ (pb.1.hasBall = true ∧ pbx.1.hasBall = false ∧
        pbx.2.ownerId = none ∧ pbx.2.isGrabbed = false)))
    (h : PosRel2 p0 b0 pb) : PosRel2 p0 b0 pbx := by
  obtain ⟨h1, h2, h3, h4⟩ := h
  obtain ⟨hs1, hs2, hs3, hs4⟩ := hrel
  rcases hs4 with heq | ⟨ha, hb, hc, hd⟩
  · rw [heq]
    exact ⟨h1, h2, h3, h4⟩
  · refine ⟨hs1.trans h1, hs2.trans h2, hs3.trans h3, Or.inr ⟨?_, hb, hc, hd⟩⟩
    rcases h4 with ⟨hb4, _, _⟩ | ⟨hp0, _, _, _⟩
    · exact hb4.symm.trans ha
    · exact hp0

/-- The slide stage preserves the pre-grab possession relation. -/
theorem posRel2_slide (p0 : Player) (b0 : Ball) (input : GameInput) (pb : Player × Ball)
    (h : PosRel2 p0 b0 pb) : PosRel2 p0 b0 (inputSlide input pb) := by
  obtain ⟨h1, h2, h3, h4⟩ := h
  obtain ⟨hs1, hs2, hs3, hs4, hs5⟩ := inputSlide_proj input pb
  refine ⟨hs1.trans h1, hs2.trans h2, hs3.trans h3, ?_⟩
  rcases h4 with ⟨ha, hb, hc⟩ | ⟨ha, hb, hc, hd⟩
  · exact Or.inl ⟨hs4.trans ha, by rw [hs5]; exact hb, by rw [hs5]; exact hc⟩
  · exact Or.inr ⟨ha, hs4.trans hb, by rw [hs5]; exact hc, by rw [hs5]; exact hd⟩

/-- The grab stage maps the pre-grab relation into the full possession
relation. -/
theorem posRel_grab (p0 : Player) (b0 : Ball) (input : GameInput) (pb : Player × Ball)
    (h : PosRel2 p0 b0 pb) : PosRel p0 b0 (inputGrab input pb) := by
  obtain ⟨h1, h2, h3, h4⟩ := h
  obtain ⟨hg1, hg2, hg3, hg4⟩ := inputGrab_rel input pb
  rcases hg4 with heq | ⟨ha, hb, hc, hd, he⟩
  · rw [heq]
    exact ⟨h1, h2, h3, h4.elim (fun x => Or.inl x) (fun x => Or.inr (Or.inl x))⟩
  · refine ⟨hg1.trans h1, hg2.trans h2, hg3.trans h3,
      Or.inr (Or.inr ⟨hc, h3.symm.trans hb, by rw [hd, h1], he, ?_⟩)⟩
    rcases h4 with ⟨_, hb4, _⟩ | ⟨hp0, _, _, _⟩
    · exact Or.inl (by rw [← hb4]; exact ha)
    · exact Or.inr hp0

/-- The whole `handleInput` body stands in the possession relation to
the incoming player and ball. -/
theorem applyInput_rel (ps : List Player) (input : GameInput) (now : ℝ)
    (p0 : Player) (b0 : Ball) : PosRel p0 b0 (applyInput ps input now p0 b0) := by
  obtain ⟨hm1, hm2, hm3, hm4⟩ := inputMove_proj input { p0 with lastUpdate := now }
  have h1 : PosRel2 p0 b0 (inputMove input { p0 with lastUpdate := now }, b0) :=
    ⟨hm1, hm2, hm3, Or.inl ⟨hm4, rfl, rfl⟩⟩
  simp only [applyInput]
  exact posRel_grab p0 b0 input _
    (posRel2_slide p0 b0 input _
      (posRel2_release p0 b0 _ _ (inputPass_rel ps input _)
        (posRel2_release p0 b0 _ _ (inputShoot_rel input _) h1)))

/-- Handling one input payload preserves the room invariant. -/
theorem handleInput_pres (st : RoomState) (pid : String) (input : GameInput) (now : ℝ)
    (h : Inv st) : Inv (handleInput st pid input now) := by
  cases hfind : st.players.find? (fun q => q.id == pid) with
  | none =>
      simp only [handleInput, hfind]
      exact h
  | some p =>
      simp only [handleInput, hfind]
      have hpmem := List.mem_of_find?_eq_some hfind
      have hpid : p.id = pid := by simpa using List.find?_some hfind
      obtain ⟨hr1, hr2, hr3, hr4⟩ := applyInput_rel st.players input now p st.room.ball
      generalize hpb : applyInput st.players input now p st.room.ball = pb
        at hr1 hr2 hr3 hr4 ⊢
      have hinj := List.inj_on_of_nodup_map h.1.2
      have hfq : ∀ q ∈ st.players, (q.id == pid) = true → q = p :=
        fun q hq hqe => hinj hq hpmem ((eq_of_beq hqe).trans hpid.symm)
      have hidmap : ((st.players.map (fun q => if q.id == pid then pb.1 else q)).map
          (fun r => r.id)) = st.players.map (fun r => r.id) := by
        rw [List.map_map]
        refine List.map_congr_left ?_
        intro q hq
        simp only [Function.comp]
        by_cases hqe : (q.id == pid) = true
        · rw [if_pos hqe, hr1]
          exact hpid.trans (eq_of_beq hqe).symm
        · rw [if_neg hqe]
      constructor
      · exact idsOK_of_map_eq hidmap h.1
      · rcases hr4 with ⟨hA, hB, hC⟩ | ⟨hA, hB, hC, hD⟩ | ⟨hA, hB, hC, hD, hE⟩
        · refine ballInv_transfer ?_ hB hC h.2
          refine roles_map ?_
          intro q hq
          by_cases hqe : (q.id == pid) = true
          · have hqp := hfq q hq hqe
            rw [if_pos hqe]
            subst hqp
            exact ⟨hr1, hr2, hr3, hA⟩
          · rw [if_neg hqe]
            exact ⟨rfl, rfl, rfl, rfl⟩
        · have hall : ∀ r ∈ st.players.map (fun q => if q.id == pid then pb.1 else q),
              r.hasBall = false := by
            intro r hr
            obtain ⟨q, hq, rfl⟩ := List.mem_map.1 hr
            by_cases hqe : (q.id == pid) = true
            · rw [if_pos hqe]
              exact hB
            · rw [if_neg hqe]
              rcases Bool.eq_false_or_eq_true q.hasBall with hqb | hqb
              · exfalso
                have hqid := h.2.2.2.1 q hq hqb p hpmem hA
                exact hqe (by simp [hqid, hpid])
              · exact hqb
          refine ⟨fun _ => hall, ?_, ?_, ?_⟩
          · intro s hs
            rw [hC] at hs
            exact Option.noConfusion hs
          · intro r1 hr1x hb1 r2 hr2x hb2
            rw [hall r1 hr1x] at hb1
            exact Bool.noConfusion hb1
          · intro hg
            rw [hD] at hg
            exact Bool.noConfusion hg
        · have hrest : ∀ q ∈ st.players, ¬ (q.id == pid) = true → q.hasBall = false := by
            intro q hq hqe
            rcases hE with hE | hE
            · have hon := ballInv_falsy h.2 hE
              exact h.2.1 hon q hq
            · rcases Bool.eq_false_or_eq_true q.hasBall with hqb | hqb
              · exfalso
                have hqid := h.2.2.2.1 q hq hqb p hpmem hE
                exact hqe (by simp [hqid, hpid])
              · exact hqb
          have hsplit : ∀ r ∈ st.players.map (fun q => if q.id == pid then pb.1 else q),
              r = pb.1 ∨ r.hasBall = false := by
            intro r hr
            obtain ⟨q, hq, rfl⟩ := List.mem_map.1 hr
            by_cases hqe : (q.id == pid) = true
            · rw [if_pos hqe]
              exact Or.inl rfl
            · rw [if_neg hqe]
              exact Or.inr (hrest q hq hqe)
          have hmem1 : pb.1 ∈ st.players.map (fun q => if q.id == pid then pb.1 else q) := by
            have hmm := List.mem_map_of_mem (fun q => if q.id == pid then pb.1 else q) hpmem
            simpa [hpid] using hmm
          refine ⟨?_, ?_, ?_, ?_⟩
          · intro hnone
            rw [hC] at hnone
            exact Option.noConfusion hnone
          · intro s hs
            rw [hC] at hs
            have hsp : s = p.id := (Option.some.inj hs).symm
            refine ⟨by rw [hsp]; exact h.1.1 p hpmem, pb.1, hmem1, hA, by rw [hr1, hsp]⟩
          · intro r1 hr1x hb1 r2 hr2x hb2
            have e1 : r1 = pb.1 := by
              rcases hsplit r1 hr1x with e | hf
              · exact e
              · rw [hf] at hb1
                exact Bool.noConfusion hb1
            have e2 : r2 = pb.1 := by
              rcases hsplit r2 hr2x with e | hf
              · exact e
              · rw [hf] at hb2
                exact Bool.noConfusion hb2
            rw [e1, e2]
          · intro _
            exact ⟨pb.1, hmem1, hA, hr3.trans hB, by rw [hC, hr1]⟩

/-- Every reachable room state satisfies the full room invariant: the
interleaving of room creation, room advances, input handling, joins and
leaves preserves it. -/
theorem reachable_inv (st : RoomState) (h : Reachable st) : Inv st := by
  induction h with
  | init roomId roomName now => exact initState_inv roomId roomName now
  | ticked st2 now rs _ ih => exact updateGame_pres now st2 rs ih
  | input st2 pid inp now _ ih => exact handleInput_pres st2 pid inp now ih
  | joined st2 pid pname team now rand hpid _ ih =>
      exact joinRoom_pres st2 pid pname team now rand hpid ih
  | left st2 pid _ ih => exact leaveRoom_pres st2 pid ih

/-- C1: possession exclusivity.  In every reachable room state — a fresh
room followed by any interleaving of tick updates (with their pickup and
tackle resolution), input handling, joins and leaves — at most one
player has `hasBall = true` (any two holders share their id, which is
stored at most once), and `ball.ownerId` is either null or the id of a
ball-holding player. -/
theorem possession_exclusive (st : RoomState) (h : Reachable st) :
    (∀ p ∈ st.players, p.hasBall = true → ∀ q ∈ st.players, q.hasBall = true → p.id = q.id) ∧
    (st.room.ball.ownerId = none ∨
      ∃ p ∈ st.players, p.hasBall = true ∧ st.room.ball.ownerId = some p.id) := by
  have hinv := reachable_inv st h
  refine ⟨hinv.2.2.2.1, ?_⟩
  cases ho : st.room.ball.ownerId with
  | none => exact Or.inl rfl
  | some s =>
      obtain ⟨hne, p, hp, hpb, hpi⟩ := hinv.2.2.1 s ho
      exact Or.inr ⟨p, hp, hpb, by rw [hpi]⟩

/-- Witness for C1 at the concrete freshly created room. -/
theorem possession_exclusive_witness :
    (∀ p ∈ (initState "room1" "Room" 0).players, p.hasBall = true →
      ∀ q ∈ (initState "room1" "Room" 0).players, q.hasBall = true → p.id = q.id) ∧
    ((initState "room1" "Room" 0).room.ball.ownerId = none ∨
      ∃ p ∈ (initState "room1" "Room" 0).players, p.hasBall = true ∧
        (initState "room1" "Room" 0).room.ball.ownerId = some p.id) :=
  possession_exclusive _ (Reachable.init "room1" "Room" 0)

/-- C2: grab consistency.  In every reachable room state, a grabbed ball
(`isGrabbed = true`) is owned: `ball.ownerId` is the id of a present
player whose `isGoalkeeper` flag is true and who holds the ball.  Every
operation that sets `isGrabbed` requires the goalkeeper flag, and every
transfer or release clears it, which is what the preservation proof of
the underlying invariant checks operation by operation. -/
theorem grab_consistency (st : RoomState) (h : Reachable st) :
    st.room.ball.isGrabbed = true →
    ∃ p ∈ st.players, st.room.ball.ownerId = some p.id ∧ p.isGoalkeeper = true ∧
      p.hasBall = true := by
  intro hg
  obtain ⟨p, hp, hpb, hpk, hpo⟩ := (reachable_inv st h).2.2.2.2 hg
  exact ⟨p, hp, hpo, hpk, hpb⟩

/-- Witness for C2 at the concrete freshly created room, whose ball is
not grabbed. -/
theorem grab_consistency_witness :
    ((initState "room1" "Room" 0).room.ball.isGrabbed = true →
      ∃ p ∈ (initState "room1" "Room" 0).players,
        (initState "room1" "Room" 0).room.ball.ownerId = some p.id ∧
        p.isGoalkeeper = true ∧ p.hasBall = true) ∧
    (initState "room1" "Room" 0).room.ball.isGrabbed = false :=
  ⟨grab_consistency _ (Reachable.init "room1" "Room" 0), rfl⟩

end

end Soccer.Store

namespace Soccer.WS

noncomputable section

/-- Replacing by-id with the found player itself, on a list with no
repeated ids, is the identity. -/
theorem map_replace_noop (pid : String) (p : Player) :
    ∀ ps : List Player, (∀ q ∈ ps, (q.id == pid) = false) →
      ps.map (fun q => if q.id == pid then p else q) = ps := by
  intro ps
  induction ps with
  | nil => intro _; rfl
  | cons h rest ih =>
      intro hall
      have hh := hall h (List.mem_cons_self h rest)
      rw [List.map_cons, ih (fun q hq => hall q (List.mem_cons_of_mem _ hq))]
      rw [hh]
      simp

/-- Replacing the player found by id with itself leaves the list
unchanged when ids are unique. -/
theorem map_replace_self : ∀ (ps : List Player) (pid : String) (p : Player),
    ps.find? (fun q => q.id == pid) = some p →
    (ps.map (fun q => q.id)).Nodup →
    ps.map (fun q => if q.id == pid then p else q) = ps := by
  intro ps
  induction ps with
  | nil => intro pid p hp _; cases hp
  | cons h rest ih =>
      intro pid p hp hnodup
      have hn : (∀ x ∈ rest, ¬ x.id = h.id) ∧ (rest.map (fun q => q.id)).Nodup := by
        simpa using hnodup
      by_cases hid : (h.id == pid) = true
      · have hph : p = h := by
          have hid2 : ((fun q : Player => q.id == pid) h) = true := hid
          rw [List.find?_cons_of_pos rest hid2] at hp
          exact ((Option.some.injEq _ _).mp hp).symm
        have hhid : h.id = pid := by simpa using hid
        have hids : ∀ q ∈ rest, (q.id == pid) = false := by
          intro q hq
          have hne : q.id ≠ pid := fun he => hn.1 q hq (he.trans hhid.symm)
          simpa using hne
        rw [List.map_cons, if_pos hid, ← hph, map_replace_noop pid p rest hids, hph]
      · have hp2 : rest.find? (fun q => q.id == pid) = some p := by
          have hid2 : ¬ ((fun q : Player => q.id == pid) h) = true := hid
          rw [List.find?_cons_of_neg rest hid2] at hp
          exact hp
        rw [List.map_cons, if_neg hid, ih pid p hp2 hn.2]

/-- C6: the goalkeeper grab.  With a grab-only input, a goalkeeper and a
free ball within twice the player size, the grab sets possession, the
owner id, the grab flag and arms the grab timer with the grab duration;
a non-goalkeeper, or an owned ball, leaves the state unchanged. -/
theorem handlePlayerInput_grabSpec (ps : List Player) (ball : Ball) (pid : String)
    (p : Player)
    (hp : ps.find? (fun q => q.id == pid) = some p)
    (hnodup : (ps.map (fun q => q.id)).Nodup) :
    (p.isGoalkeeper = true → ball.ownerId = none →
      Real.sqrt ((p.x - ball.x) * (p.x - ball.x) + (p.y - ball.y) * (p.y - ball.y)) <
        PLAYER_SIZE * 2 →
      handlePlayerInput ps ball pid grabInput =
        (ps.map (fun q => if q.id == pid then
            { p with hasBall := true, grabTimer := GRAB_DURATION } else q),
         { ball with ownerId := some p.id, isGrabbed := true })) ∧
    (p.isGoalkeeper = false → handlePlayerInput ps ball pid grabInput = (ps, ball)) ∧
    (∀ s, s ≠ "" → ball.ownerId = some s →
      handlePlayerInput ps ball pid grabInput = (ps, ball)) := by
  refine ⟨?_, ?_, ?_⟩
  · intro hgk hnone hdist
    unfold handlePlayerInput
    rw [hp]
    simp only [grabInput]
    norm_num [hgk, hnone, jsTruthy, hdist]
  · intro hgk
    have h2 : handlePlayerInput ps ball pid grabInput =
        (ps.map (fun q => if q.id == pid then p else q), ball) := by
      unfold handlePlayerInput
      rw [hp]
      simp only [grabInput]
      norm_num [hgk]
    rw [h2, map_replace_self ps pid p hp hnodup]
  · intro s hs howner
    have htr : jsTruthy ball.ownerId = true := by
      rw [howner]
      simp [jsTruthy, hs]
    have h2 : handlePlayerInput ps ball pid grabInput =
        (ps.map (fun q => if q.id == pid then p else q), ball) := by
      unfold handlePlayerInput
      rw [hp]
      simp only [grabInput]
      norm_num [htr]
    rw [h2, map_replace_self ps pid p hp hnodup]

/-- Witness for C6 at a concrete goalkeeper standing on a free ball. -/
theorem handlePlayerInput_grabSpec_witness :
    ([keeperW, fieldW].find? (fun q => q.id == "gk") = some keeperW) ∧
    keeperW.isGoalkeeper = true ∧
    freeBallW.ownerId = none ∧
    Real.sqrt ((keeperW.x - freeBallW.x) * (keeperW.x - freeBallW.x) +
      (keeperW.y - freeBallW.y) * (keeperW.y - freeBallW.y)) < PLAYER_SIZE * 2 ∧
    handlePlayerInput [keeperW, fieldW] freeBallW "gk" grabInput =
      ([keeperW, fieldW].map (fun q => if q.id == "gk" then
          { keeperW with hasBall := true, grabTimer := GRAB_DURATION } else q),
       { freeBallW with ownerId := some keeperW.id, isGrabbed := true }) := by
  have hdist : Real.sqrt ((keeperW.x - freeBallW.x) * (keeperW.x - freeBallW.x) +
      (keeperW.y - freeBallW.y) * (keeperW.y - freeBallW.y)) < PLAYER_SIZE * 2 := by
    rw [show (keeperW.x - freeBallW.x) * (keeperW.x - freeBallW.x) +
        (keeperW.y - freeBallW.y) * (keeperW.y - freeBallW.y) = 0 by
      norm_num [keeperW, freeBallW]]
    rw [Real.sqrt_zero]
    norm_num [PLAYER_SIZE]
  have hnodup : (([keeperW, fieldW] : List Player).map (fun q => q.id)).Nodup := by
    simp [keeperW, fieldW]
  refine ⟨rfl, rfl, rfl, hdist, ?_⟩
  exact (handlePlayerInput_grabSpec [keeperW, fieldW] freeBallW "gk" keeperW rfl
    hnodup).1 rfl rfl hdist

end

end Soccer.WS

namespace Soccer.AI

noncomputable section

/-- While the reaction countdown covers them, successive update calls
only decrement the countdown: after `k` such calls the AI object is the
original with `k` subtracted from the countdown. -/
theorem runAI_delay (env : ℕ → AIContext × RS) (ai : CPUAI) :
    ∀ k : ℕ, (k : ℤ) ≤ ai.reactionTimer →
      runAI env ai k = { ai with reactionTimer := ai.reactionTimer - k } := by
  intro k
  induction k with
  | zero =>
      intro _
      show ai = _
      simp
  | succ k ih =>
      intro hk
      have hk2 : (k : ℤ) ≤ ai.reactionTimer := by
        push_cast at hk
        omega
      have hpos : 0 < ai.reactionTimer - (k : ℤ) := by
        push_cast at hk
        omega
      show (update (runAI env ai k) (env k).1 (env k).2).1.2 = _
      rw [ih hk2]
      unfold update
      rw [if_pos hpos]
      show ({ ai with reactionTimer := ai.reactionTimer - (k : ℤ) - 1 } : CPUAI) = _
      have harith : ai.reactionTimer - (k : ℤ) - 1 = ai.reactionTimer - ((k : ℕ) + 1 : ℕ) := by
        push_cast
        ring
      rw [harith]

/-- C8: reaction latency of the CPU AI.  A state transition arms a
reaction delay of `floor(reactionDelay * (0.5 + random * 0.5))` ticks;
every update call made while the countdown is positive returns the cached
previously computed action verbatim and only decrements the countdown —
state, dwell timer, cached action and movement target are untouched and
no oracle value is consumed — the countdown reaches zero after exactly
that many calls, and a call finding a zero countdown runs the full
decision pipeline again. -/
theorem cpuai_reactionDelay :
    (∀ (ai : CPUAI) (s : AIState) (rs : RS), ai.state ≠ s →
      (transitionTo ai s rs).1.reactionTimer =
        ⌊ai.params.reactionDelay * (0.5 + rs 0 * 0.5)⌋ ∧
      (transitionTo ai s rs).1.state = s ∧
      (transitionTo ai s rs).1.stateTimer = 0 ∧
      (transitionTo ai s rs).1.lastDecision = ai.lastDecision) ∧
    (∀ (ai : CPUAI) (ctx : AIContext) (rs : RS), 0 < ai.reactionTimer →
      update ai ctx rs =
        ((ai.lastDecision, { ai with reactionTimer := ai.reactionTimer - 1 }), rs)) ∧
    (∀ (env : ℕ → AIContext × RS) (ai : CPUAI) (k : ℕ), (k : ℤ) < ai.reactionTimer →
      actionAt env ai k = ai.lastDecision ∧
      (runAI env ai k).state = ai.state ∧
      (runAI env ai k).stateTimer = ai.stateTimer ∧
      (runAI env ai k).lastDecision = ai.lastDecision ∧
      (runAI env ai k).targetX = ai.targetX ∧
      (runAI env ai k).targetY = ai.targetY) ∧
    (∀ (env : ℕ → AIContext × RS) (ai : CPUAI), 0 ≤ ai.reactionTimer →
      (runAI env ai ai.reactionTimer.toNat).reactionTimer = 0) ∧
    (∀ (ai : CPUAI) (ctx : AIContext) (rs : RS), ai.reactionTimer ≤ 0 →
      update ai ctx rs = updateCompute ai ctx rs) := by
  refine ⟨?_, ?_, ?_, ?_, ?_⟩
  · intro ai s rs hs
    unfold transitionTo
    rw [if_pos hs]
    exact ⟨rfl, rfl, rfl, rfl⟩
  · intro ai ctx rs h
    unfold update
    rw [if_pos h]
  · intro env ai k hk
    have hk2 : (k : ℤ) ≤ ai.reactionTimer := le_of_lt hk
    have hrun := runAI_delay env ai k hk2
    have hpos : 0 < ai.reactionTimer - (k : ℤ) := by omega
    constructor
    · unfold actionAt
      rw [hrun]
      unfold update
      rw [if_pos hpos]
    · rw [hrun]
      exact ⟨rfl, rfl, rfl, rfl, rfl⟩
  · intro env ai h0
    have hcast : ((ai.reactionTimer.toNat : ℤ)) ≤ ai.reactionTimer := by
      rw [Int.toNat_of_nonneg h0]
    rw [runAI_delay env ai ai.reactionTimer.toNat hcast]
    show ai.reactionTimer - ai.reactionTimer.toNat = 0
    rw [Int.toNat_of_nonneg h0]
    ring
  · intro ai ctx rs h
    unfold update
    rw [if_neg (not_lt.mpr h)]

/-- Witness for C8 at a concrete AI instance with a three-tick reaction
countdown and medium difficulty: the armed delay evaluates the floor
formula, and the second of the delayed calls still replays the cached
action. -/
theorem cpuai_reactionDelay_witness :
    aiW.state ≠ AIState.chase_ball ∧
    ((2 : ℕ) : ℤ) < aiW.reactionTimer ∧
    0 ≤ aiW.reactionTimer ∧
    (transitionTo aiW AIState.chase_ball (fun _ => (1 : ℝ) / 2)).1.reactionTimer =
      ⌊aiW.params.reactionDelay * (0.5 + (fun _ => (1 : ℝ) / 2) 0 * 0.5)⌋ ∧
    actionAt envW aiW 2 = aiW.lastDecision ∧
    (runAI envW aiW aiW.reactionTimer.toNat).reactionTimer = 0 := by
  have hne : aiW.state ≠ AIState.chase_ball := by
    simp [aiW]
  have hlt : ((2 : ℕ) : ℤ) < aiW.reactionTimer := by
    norm_num [aiW]
  have h0 : (0 : ℤ) ≤ aiW.reactionTimer := by
    norm_num [aiW]
  exact ⟨hne, hlt, h0,
    (cpuai_reactionDelay.1 aiW AIState.chase_ball (fun _ => (1 : ℝ) / 2) hne).1,
    (cpuai_reactionDelay.2.2.1 envW aiW 2 hlt).1,
    cpuai_reactionDelay.2.2.2.1 envW aiW h0⟩

end

end Soccer.AI
